import Mathlib

/-!
Verification development for the RealEstateAPISkipTrace repository.

The development shallowly embeds the two core pieces of the application:

* the request-fingerprint cache of `src/app.py` (`cache_set`, `cache_get`,
  `detail_cache_set`, `detail_cache_get`, and the `search` route's cache-key
  derivation via `json.dumps(..., sort_keys=True)` + `hashlib.md5`), and
* the response normalization pipeline of the `search` route together with
  the upstream client `SkipTraceClient.skip_trace` of `src/reapi_client.py`.

JSON values are modelled by the inductive type `JVal` (objects keep the
insertion order of their keys, as Python dicts do).  JSON numbers are
restricted to integers: every number handled by the repository's own code
paths (`credits`, status payloads) is an integer, and floating point is out
of scope of the model.  Machine-level hashing (`hashlib.md5`) is modelled by
a bit-faithful implementation of MD5 over natural numbers.  Time is an
integer count of whole seconds (`datetime.utcnow().timestamp()` truncated
to `int`, exactly as the source does).
-/

/-- JSON values as produced by `json.loads` / consumed by `json.dumps` in the
source.  Objects are association lists in insertion order (Python dicts
preserve insertion order); numbers are restricted to integers. -/
inductive JVal where
  | null
  | bool (b : Bool)
  | num (n : Int)
  | str (s : String)
  | arr (xs : List JVal)
  | obj (kvs : List (String × JVal))
deriving Repr

mutual

/-- Structural equality test for `JVal`. -/
def JVal.beq : JVal → JVal → Bool
  | .null, .null => true
  | .bool a, .bool b => a == b
  | .num a, .num b => a == b
  | .str a, .str b => a == b
  | .arr a, .arr b => JVal.beqList a b
  | .obj a, .obj b => JVal.beqObj a b
  | _, _ => false

/-- Structural equality test for lists of `JVal`. -/
def JVal.beqList : List JVal → List JVal → Bool
  | [], [] => true
  | a :: as, b :: bs => JVal.beq a b && JVal.beqList as bs
  | _, _ => false

/-- Structural equality test for association lists of `JVal`. -/
def JVal.beqObj : List (String × JVal) → List (String × JVal) → Bool
  | [], [] => true
  | (k, a) :: as, (k2, b) :: bs => k == k2 && JVal.beq a b && JVal.beqObj as bs
  | _, _ => false

end

mutual

theorem JVal.beq_iff : ∀ a b : JVal, JVal.beq a b = true ↔ a = b
  | .null, b => by cases b <;> simp [JVal.beq]
  | .bool x, b => by cases b <;> simp [JVal.beq]
  | .num x, b => by cases b <;> simp [JVal.beq]
  | .str x, b => by cases b <;> simp [JVal.beq]
  | .arr xs, b => by
      cases b <;> simp [JVal.beq]
      exact JVal.beqList_iff xs _
  | .obj xs, b => by
      cases b <;> simp [JVal.beq]
      exact JVal.beqObj_iff xs _

theorem JVal.beqList_iff : ∀ a b : List JVal, JVal.beqList a b = true ↔ a = b
  | [], b => by cases b <;> simp [JVal.beqList]
  | x :: xs, b => by
      cases b with
      | nil => simp [JVal.beqList]
      | cons y ys =>
        have h1 := JVal.beq_iff x y
        have h2 := JVal.beqList_iff xs ys
        simp [JVal.beqList, Bool.and_eq_true, h1, h2]

theorem JVal.beqObj_iff : ∀ a b : List (String × JVal), JVal.beqObj a b = true ↔ a = b
  | [], b => by cases b <;> simp [JVal.beqObj]
  | (k, x) :: xs, b => by
      cases b with
      | nil => simp [JVal.beqObj]
      | cons y ys =>
        obtain ⟨k2, y⟩ := y
        have h1 := JVal.beq_iff x y
        have h2 := JVal.beqObj_iff xs ys
        simp only [JVal.beqObj, Bool.and_eq_true, h1, h2, List.cons.injEq, Prod.mk.injEq,
          beq_iff_eq]

end

instance : DecidableEq JVal := fun a b =>
  decidable_of_iff (JVal.beq a b = true) (JVal.beq_iff a b)

/-- Python truthiness of a JSON value (`bool(x)`): `None`, `False`, `0`,
`""`, `[]` and `{}` are falsy, everything else truthy. -/
def jTruthy : JVal → Bool
  | .null => false
  | .bool b => b
  | .num n => n != 0
  | .str s => s != ""
  | .arr xs => !xs.isEmpty
  | .obj kvs => !kvs.isEmpty

/-- Python truthiness of an optional string argument (`None` and `""` are
falsy). -/
def truthyS : Option String → Bool
  | none => false
  | some s => s != ""

/-- First value bound to `k` in an association list (Python dict lookup;
dicts built by the source never hold duplicate keys). -/
def jLookup (k : String) : List (String × JVal) → Option JVal
  | [] => none
  | (k2, v) :: kvs => if k2 = k then some v else jLookup k kvs

/-- Key list of a JSON object (`list(d.keys())`); `[]` on non-objects. -/
def jKeys : JVal → List String
  | .obj kvs => kvs.map Prod.fst
  | _ => []

/-- The opening brace character. -/
def lbrace : Char := Char.ofNat 123

/-- The closing brace character. -/
def rbrace : Char := Char.ofNat 125

/-- Decimal digit character for `n < 10`. -/
def digitChar (n : Nat) : Char := Char.ofNat (48 + n)

/-- Fuel-indexed worker for `natDigits`; the fuel strictly exceeds the
number passed, which is always enough since dividing by ten reaches the
single-digit base case long before the fuel runs out. -/
def natDigitsAux : Nat → Nat → List Char
  | 0, _ => []
  | f + 1, n =>
    if n < 10 then [digitChar n]
    else natDigitsAux f (n / 10) ++ [digitChar (n % 10)]

/-- Decimal digits of a natural number, most significant first (the digits
Python prints for a non-negative `int`). -/
def natDigits (n : Nat) : List Char := natDigitsAux (n + 1) n

/-- Digits Python prints for an `int`, with a leading minus sign when
negative. -/
def intDigits (i : Int) : List Char :=
  if i < 0 then '-' :: natDigits i.natAbs else natDigits i.natAbs

/-- Lowercase hexadecimal digit character for `n < 16` (as in Python's
`\uXXXX` escapes). -/
def hexDigitChar (n : Nat) : Char :=
  if n < 10 then Char.ofNat (48 + n) else Char.ofNat (87 + n)

/-- Four lowercase hex digits of `n % 0x10000`, as in a `\uXXXX` escape. -/
def hex4 (n : Nat) : List Char :=
  [hexDigitChar (n / 4096 % 16), hexDigitChar (n / 256 % 16),
   hexDigitChar (n / 16 % 16), hexDigitChar (n % 16)]

/-- Serialization of one character inside a JSON string literal, following
CPython's `json` encoder with its default `ensure_ascii=True`: `"` and `\`
get a backslash escape, the control characters BS HT LF FF CR get their
two-character escapes, all other characters below `0x20` or above `0x7e`
become `\uXXXX` (a surrogate pair for code points above `0xffff`), and the
printable ASCII range is kept literally. -/
def escChar (c : Char) : List Char :=
  let n := c.toNat
  if c = '"' then ['\\', '"']
  else if c = '\\' then ['\\', '\\']
  else if n = 8 then ['\\', 'b']
  else if n = 9 then ['\\', 't']
  else if n = 10 then ['\\', 'n']
  else if n = 12 then ['\\', 'f']
  else if n = 13 then ['\\', 'r']
  else if n < 32 then '\\' :: 'u' :: hex4 n
  else if n < 127 then [c]
  else if n < 65536 then '\\' :: 'u' :: hex4 n
  else
    ('\\' :: 'u' :: hex4 (55296 + (n - 65536) / 1024)) ++
      ('\\' :: 'u' :: hex4 (56320 + (n - 65536) % 1024))

/-- Serialization of a JSON string literal (quotes plus escaped content). -/
def dumpString (s : String) : List Char :=
  '"' :: (s.data.map escChar).flatten ++ ['"']

mutual

/-- Characters `json.dumps` emits for a value, with CPython's default
separators `", "` and `": "` and default `ensure_ascii=True`. -/
def dumpVal : JVal → List Char
  | .null => "null".data
  | .bool true => "true".data
  | .bool false => "false".data
  | .num i => intDigits i
  | .str s => dumpString s
  | .arr [] => "[]".data
  | .arr (x :: xs) => '[' :: (dumpVal x ++ dumpArrTail xs ++ [']'])
  | .obj [] => [lbrace, rbrace]
  | .obj (p :: ps) => lbrace :: (dumpPair p ++ dumpObjTail ps ++ [rbrace])

/-- Remaining array elements, each preceded by `", "`. -/
def dumpArrTail : List JVal → List Char
  | [] => []
  | x :: xs => ',' :: ' ' :: (dumpVal x ++ dumpArrTail xs)

/-- One `"key": value` member of an object. -/
def dumpPair : String × JVal → List Char
  | (k, v) => dumpString k ++ ':' :: ' ' :: dumpVal v

/-- Remaining object members, each preceded by `", "`. -/
def dumpObjTail : List (String × JVal) → List Char
  | [] => []
  | p :: ps => ',' :: ' ' :: (dumpPair p ++ dumpObjTail ps)

end

/-- The model of Python's `json.dumps(v)` with default options, as used by
`cache_set` and `detail_cache_set` in `src/app.py`. -/
def jsonDumps (v : JVal) : String := String.mk (dumpVal v)

/-- The whitespace characters the JSON grammar skips between tokens
(exactly space, tab, newline, carriage return, as in Python's `json`). -/
def jsonWs (c : Char) : Bool := c = ' ' || c = '\t' || c = '\n' || c = '\r'

/-- Drop leading JSON whitespace. -/
def skipWs : List Char → List Char
  | [] => []
  | c :: cs => if jsonWs c then skipWs cs else c :: cs

/-- Value of one hexadecimal digit character, accepting both cases. -/
def parseHexDigit (c : Char) : Option Nat :=
  let n := c.toNat
  if 48 ≤ n ∧ n ≤ 57 then some (n - 48)
  else if 97 ≤ n ∧ n ≤ 102 then some (n - 87)
  else if 65 ≤ n ∧ n ≤ 70 then some (n - 55)
  else none

/-- Fuel-indexed scanner for the body of a JSON string literal (the part
after the opening quote), mirroring CPython's `py_scanstring` in strict
mode: two-character escapes, `\uXXXX` escapes with surrogate-pair
combination, raw control characters rejected, any other raw character
accepted.  A lone surrogate escape — which Python would keep as an
unpaired surrogate code unit — denotes a Python string outside the range
representable by Lean's `Char`, and the model rejects it instead. -/
def parseStringBody : Nat → List Char → Option (List Char × List Char)
  | 0, _ => none
  | _ + 1, [] => none
  | f + 1, c :: cs =>
    if c = '"' then some ([], cs)
    else if c = '\\' then
      match cs with
      | [] => none
      | e :: cs2 =>
        if e = '"' then (parseStringBody f cs2).map fun (l, r) => ('"' :: l, r)
        else if e = '\\' then (parseStringBody f cs2).map fun (l, r) => ('\\' :: l, r)
        else if e = '/' then (parseStringBody f cs2).map fun (l, r) => ('/' :: l, r)
        else if e = 'b' then (parseStringBody f cs2).map fun (l, r) => (Char.ofNat 8 :: l, r)
        else if e = 'f' then (parseStringBody f cs2).map fun (l, r) => (Char.ofNat 12 :: l, r)
        else if e = 'n' then (parseStringBody f cs2).map fun (l, r) => ('\n' :: l, r)
        else if e = 'r' then (parseStringBody f cs2).map fun (l, r) => (Char.ofNat 13 :: l, r)
        else if e = 't' then (parseStringBody f cs2).map fun (l, r) => ('\t' :: l, r)
        else if e = 'u' then
          match cs2 with
          | a :: b :: c2 :: d :: cs3 =>
            match parseHexDigit a, parseHexDigit b, parseHexDigit c2, parseHexDigit d with
            | some x, some y, some z, some w =>
              let h := ((x * 16 + y) * 16 + z) * 16 + w
              if 55296 ≤ h ∧ h ≤ 57343 then
                if h ≤ 56319 then
                  match cs3 with
                  | s1 :: s2 :: a2 :: b2 :: c3 :: d2 :: cs5 =>
                    if s1 = '\\' ∧ s2 = 'u' then
                      match parseHexDigit a2, parseHexDigit b2, parseHexDigit c3,
                          parseHexDigit d2 with
                      | some x2, some y2, some z2, some w2 =>
                        let lo := ((x2 * 16 + y2) * 16 + z2) * 16 + w2
                        if 56320 ≤ lo ∧ lo ≤ 57343 then
                          (parseStringBody f cs5).map fun (l, r) =>
                            (Char.ofNat (65536 + (h - 55296) * 1024 + (lo - 56320)) :: l, r)
                        else none
                      | _, _, _, _ => none
                    else none
                  | _ => none
                else none
              else
                (parseStringBody f cs3).map fun (l, r) => (Char.ofNat h :: l, r)
            | _, _, _, _ => none
          | _ => none
        else none
    else if c.toNat < 32 then none
    else (parseStringBody f cs).map fun (l, r) => (c :: l, r)

/-- Consume a run of decimal digits, accumulating their value. -/
def parseDigitsAcc : Nat → List Char → Nat × List Char
  | acc, [] => (acc, [])
  | acc, c :: cs =>
    if c.isDigit then parseDigitsAcc (acc * 10 + (c.toNat - 48)) cs else (acc, c :: cs)

/-- Unsigned part of a JSON integer token (`0|[1-9][0-9]*`), applying the
already-consumed sign.  A number continuing with a fraction or exponent is
a Python float, which is outside the model, so the scanner rejects it. -/
def parseIntCore (neg : Bool) : List Char → Option (Int × List Char)
  | [] => none
  | c :: t =>
    if c = '0' then
      match t with
      | d :: _ =>
        if d.isDigit ∨ d = '.' ∨ d = 'e' ∨ d = 'E' then none
        else some (0, t)
      | [] => some (0, t)
    else if c.isDigit then
      let vr := parseDigitsAcc (c.toNat - 48) t
      match vr.2 with
      | d :: _ =>
        if d = '.' ∨ d = 'e' ∨ d = 'E' then none
        else some (if neg then -(vr.1 : Int) else (vr.1 : Int), vr.2)
      | [] => some (if neg then -(vr.1 : Int) else (vr.1 : Int), vr.2)
    else none

/-- Scanner for a JSON integer token, following Python's number grammar
`-?(0|[1-9][0-9]*)` for the integer part.  Python's `json` also accepts the
extensions `NaN`, `Infinity` and `-Infinity`, which are floats and outside
the model. -/
def parseIntTok (cs : List Char) : Option (Int × List Char) :=
  match cs with
  | c :: t => if c = '-' then parseIntCore true t else parseIntCore false (c :: t)
  | [] => none

mutual

/-- Fuel-indexed recursive-descent parser for one JSON value, mirroring
Python's `json.loads` grammar (restricted to integer numbers).  The fuel
only bounds the recursion depth of the mutual loop; `jsonLoads` supplies
enough fuel that it never runs out on an input the grammar accepts. -/
def parseVal : Nat → List Char → Option (JVal × List Char)
  | 0, _ => none
  | f + 1, cs =>
    match skipWs cs with
    | [] => none
    | c :: rest =>
      if c = 'n' then
        match rest with
        | 'u' :: 'l' :: 'l' :: r => some (.null, r)
        | _ => none
      else if c = 't' then
        match rest with
        | 'r' :: 'u' :: 'e' :: r => some (.bool true, r)
        | _ => none
      else if c = 'f' then
        match rest with
        | 'a' :: 'l' :: 's' :: 'e' :: r => some (.bool false, r)
        | _ => none
      else if c = '"' then
        match parseStringBody (rest.length + 1) rest with
        | some (l, r) => some (.str (String.mk l), r)
        | none => none
      else if c = '[' then
        match skipWs rest with
        | c2 :: r2 =>
          if c2 = ']' then some (.arr [], r2)
          else
            match parseArrRest f rest with
            | some (vs, r) => some (.arr vs, r)
            | none => none
        | [] => none
      else if c = lbrace then
        match skipWs rest with
        | c2 :: r2 =>
          if c2 = rbrace then some (.obj [], r2)
          else
            match parseObjRest f rest with
            | some (ps, r) => some (.obj ps, r)
            | none => none
        | [] => none
      else if c = '-' || c.isDigit then
        match parseIntTok (c :: rest) with
        | some (i, r) => some (.num i, r)
        | none => none
      else none

/-- Elements of a non-empty JSON array after the opening bracket: a value,
then `,`-separated further values, then the closing bracket. -/
def parseArrRest : Nat → List Char → Option (List JVal × List Char)
  | 0, _ => none
  | f + 1, cs =>
    match parseVal f cs with
    | none => none
    | some (v, r1) =>
      match skipWs r1 with
      | ',' :: r2 =>
        match parseArrRest f r2 with
        | some (vs, r) => some (v :: vs, r)
        | none => none
      | ']' :: r2 => some ([v], r2)
      | _ => none

/-- Members of a non-empty JSON object after the opening brace: a string
key, a colon, a value, then `,`-separated further members, then the
closing brace. -/
def parseObjRest : Nat → List Char → Option (List (String × JVal) × List Char)
  | 0, _ => none
  | f + 1, cs =>
    match skipWs cs with
    | '"' :: r0 =>
      match parseStringBody (r0.length + 1) r0 with
      | none => none
      | some (k, r1) =>
        match skipWs r1 with
        | ':' :: r2 =>
          match parseVal f r2 with
          | none => none
          | some (v, r3) =>
            match skipWs r3 with
            | ',' :: r4 =>
              match parseObjRest f r4 with
              | some (ps, r) => some ((String.mk k, v) :: ps, r)
              | none => none
            | c :: r4 => if c = rbrace then some ([(String.mk k, v)], r4) else none
            | [] => none
        | _ => none
    | _ => none

end

/-- The model of Python's `json.loads(s)` as used by `cache_get` and
`detail_cache_get` in `src/app.py`: parse one value and require that only
whitespace follows it.  `none` models `json.loads` raising (for example
`json.JSONDecodeError`); as documented on the scanners above, inputs whose
Python value would contain floats or unpaired surrogates are outside the
model and also map to `none`. -/
def jsonLoads (s : String) : Option JVal :=
  match parseVal (s.data.length + 1) s.data with
  | some (v, rest) => if (skipWs rest).isEmpty then some v else none
  | none => none

/-- A continuation after which a JSON integer token ends: empty input or a
character that neither extends the digit run nor turns the token into a
float.  Every continuation produced by `dumpVal` (a separator, a closing
bracket, or the end of the document) satisfies this. -/
def numSafe : List Char → Bool
  | [] => true
  | c :: _ => !(c.isDigit || c = '.' || c = 'e' || c = 'E')

theorem skipWs_not_ws (c : Char) (cs : List Char) (h : jsonWs c = false) :
    skipWs (c :: cs) = c :: cs := by
  simp [skipWs, h]

theorem skipWs_space (cs : List Char) : skipWs (' ' :: cs) = skipWs cs := by
  simp [skipWs, jsonWs]

theorem digitChar_toNat (d : Nat) (h : d < 10) : (digitChar d).toNat = 48 + d := by
  interval_cases d <;> decide

theorem digitChar_isDigit (d : Nat) (h : d < 10) : (digitChar d).isDigit = true := by
  interval_cases d <;> decide

theorem digitChar_eq_zero_iff (d : Nat) (h : d < 10) : digitChar d = '0' ↔ d = 0 := by
  interval_cases d <;> decide

theorem natDigitsAux_congr : ∀ f g n : Nat, n < f → n < g → natDigitsAux f n = natDigitsAux g n
  | 0, _, _, hf, _ => by omega
  | _ + 1, 0, _, _, hg => by omega
  | f + 1, g + 1, n, hf, hg => by
    simp only [natDigitsAux]
    by_cases h : n < 10
    · simp [h]
    · simp only [if_neg h]
      rw [natDigitsAux_congr f g (n / 10) (by omega) (by omega)]

theorem natDigits_eq (n : Nat) :
    natDigits n = if n < 10 then [digitChar n] else natDigits (n / 10) ++ [digitChar (n % 10)] := by
  show natDigitsAux (n + 1) n = _
  by_cases h : n < 10
  · simp [natDigitsAux, h]
  · simp only [natDigitsAux, if_neg h]
    rw [natDigitsAux_congr n (n / 10 + 1) (n / 10) (by omega) (by omega)]
    rfl

theorem natDigits_shape (n : Nat) :
    ∃ d t, natDigits n = digitChar d :: t ∧ d < 10 ∧ (1 ≤ n → 1 ≤ d) := by
  induction n using Nat.strong_induction_on with
  | _ n ih =>
    rw [natDigits_eq n]
    by_cases h : n < 10
    · exact ⟨n, [], by simp [h], h, fun h1 => h1⟩
    · obtain ⟨d, t, hEq, hd, hpos⟩ := ih (n / 10) (by omega)
      exact ⟨d, t ++ [digitChar (n % 10)], by simp [h, hEq], hd, fun _ => hpos (by omega)⟩

theorem parseDigitsAcc_stop (acc : Nat) (rest : List Char) (h : numSafe rest = true) :
    parseDigitsAcc acc rest = (acc, rest) := by
  cases rest with
  | nil => simp [parseDigitsAcc]
  | cons c t =>
    simp only [numSafe, Bool.not_eq_eq_eq_not, Bool.not_true, Bool.or_eq_false_iff] at h
    simp [parseDigitsAcc, h.1]

theorem parseDigitsAcc_natDigits (n : Nat) : ∀ acc rest,
    parseDigitsAcc acc (natDigits n ++ rest) =
      parseDigitsAcc (acc * 10 ^ (natDigits n).length + n) rest := by
  induction n using Nat.strong_induction_on with
  | _ n ih =>
    intro acc rest
    rw [natDigits_eq n]
    by_cases h : n < 10
    · simp only [if_pos h, List.singleton_append, List.length_singleton]
      simp [parseDigitsAcc, digitChar_isDigit n h, digitChar_toNat n h]
    · simp only [if_neg h, List.append_assoc, List.singleton_append, List.length_append,
        List.length_singleton]
      rw [ih (n / 10) (by omega)]
      have h10 : n % 10 < 10 := Nat.mod_lt _ (by norm_num)
      simp only [parseDigitsAcc, digitChar_isDigit _ h10, if_pos rfl, digitChar_toNat _ h10]
      have hx : (48 + n % 10 - 48) = n % 10 := by omega
      rw [hx, pow_succ]
      have hacc : (acc * 10 ^ (natDigits (n / 10)).length + n / 10) * 10 + n % 10 =
          acc * (10 ^ (natDigits (n / 10)).length * 10) + n := by
        have hdm := Nat.div_add_mod n 10
        set X := 10 ^ (natDigits (n / 10)).length
        ring_nf
        omega
      rw [hacc]
      simp

theorem parseIntCore_natDigits (neg : Bool) (n : Nat) (rest : List Char)
    (h : numSafe rest = true) :
    parseIntCore neg (natDigits n ++ rest) =
      some (if neg then -(n : Int) else (n : Int), rest) := by
  obtain ⟨d, t, hEq, hd, hpos⟩ := natDigits_shape n
  by_cases h0 : n = 0
  · subst h0
    have : natDigits 0 = ['0'] := by rw [natDigits_eq]; decide
    rw [this]
    simp only [List.singleton_append, parseIntCore, if_pos rfl]
    cases rest with
    | nil => simp
    | cons c cs =>
      have hc : ¬(c.isDigit ∨ c = '.' ∨ c = 'e' ∨ c = 'E') := by
        intro hcon
        rcases hcon with h1 | h1 | h1 | h1 <;> simp [numSafe, h1] at h
      simp [hc]
  · have hd1 : 1 ≤ d := hpos (by omega)
    rw [hEq]
    have hne0 : ¬(digitChar d = '0') := by
      rw [digitChar_eq_zero_iff d hd]; omega
    simp only [List.cons_append, parseIntCore, if_neg hne0, digitChar_isDigit d hd, if_pos rfl]
    have hstep : parseDigitsAcc ((digitChar d).toNat - 48) (t ++ rest) = (n, rest) := by
      have h1 : parseDigitsAcc 0 (natDigits n ++ rest) = (n, rest) := by
        rw [parseDigitsAcc_natDigits n 0 rest]
        simpa using parseDigitsAcc_stop n rest h
      rw [hEq] at h1
      simp only [List.cons_append, parseDigitsAcc, digitChar_isDigit d hd, if_pos rfl] at h1
      simpa using h1
    rw [hstep]
    cases rest with
    | nil => simp
    | cons c cs =>
      have hc : ¬(c = '.' ∨ c = 'e' ∨ c = 'E') := by
        intro hcon
        rcases hcon with h1 | h1 | h1 <;> simp [numSafe, h1] at h
      simp [hc]

theorem parseIntTok_intDigits (i : Int) (rest : List Char) (h : numSafe rest = true) :
    parseIntTok (intDigits i ++ rest) = some (i, rest) := by
  by_cases hneg : i < 0
  · have h1 : intDigits i = '-' :: natDigits i.natAbs := by simp [intDigits, hneg]
    rw [h1]
    simp only [List.cons_append, parseIntTok, if_pos rfl]
    rw [parseIntCore_natDigits true i.natAbs rest h]
    rw [show (if true = true then -(i.natAbs : Int) else (i.natAbs : Int)) =
      -(i.natAbs : Int) from rfl]
    rw [show -(i.natAbs : Int) = i by omega]
    simp
  · have hi : intDigits i = natDigits i.natAbs := by simp [intDigits, hneg]
    rw [hi]
    obtain ⟨d, t, hEq, hd, hpos⟩ := natDigits_shape i.natAbs
    rw [hEq]
    have hnd : ¬(digitChar d = '-') := by interval_cases d <;> decide
    simp only [List.cons_append, parseIntTok, if_neg hnd]
    rw [← List.cons_append, ← hEq, parseIntCore_natDigits false i.natAbs rest h]
    rw [show (if false = true then -(i.natAbs : Int) else (i.natAbs : Int)) =
      (i.natAbs : Int) from rfl]
    rw [show (i.natAbs : Int) = i by omega]

theorem parseHexDigit_hexDigitChar (d : Nat) (h : d < 16) :
    parseHexDigit (hexDigitChar d) = some d := by
  interval_cases d <;> decide

theorem char_toNat_lt (c : Char) : c.toNat < 1114112 := by
  have hv : c.toNat = c.val.toNat := rfl
  rcases c.valid with h | h
  · omega
  · omega

theorem char_toNat_not_surrogate (c : Char) : c.toNat < 55296 ∨ 57343 < c.toNat := by
  have hv : c.toNat = c.val.toNat := rfl
  rcases c.valid with h | h
  · exact Or.inl (by omega)
  · exact Or.inr (by omega)

theorem parseStringBody_unicode (f : Nat) (a b c2 d : Char) (cs3 : List Char)
    (x y z w : Nat)
    (ha : parseHexDigit a = some x) (hb : parseHexDigit b = some y)
    (hc : parseHexDigit c2 = some z) (hd : parseHexDigit d = some w)
    (hns : ¬(55296 ≤ ((x * 16 + y) * 16 + z) * 16 + w ∧
      ((x * 16 + y) * 16 + z) * 16 + w ≤ 57343)) :
    parseStringBody (f + 1) ('\\' :: 'u' :: a :: b :: c2 :: d :: cs3) =
      (parseStringBody f cs3).map fun lr =>
        (Char.ofNat (((x * 16 + y) * 16 + z) * 16 + w) :: lr.1, lr.2) := by
  simp [parseStringBody, ha, hb, hc, hd, hns]

theorem parseStringBody_surrogatePair (f : Nat) (a b c2 d a2 b2 c3 d2 : Char)
    (cs5 : List Char) (x y z w x2 y2 z2 w2 : Nat)
    (ha : parseHexDigit a = some x) (hb : parseHexDigit b = some y)
    (hc : parseHexDigit c2 = some z) (hd : parseHexDigit d = some w)
    (ha2 : parseHexDigit a2 = some x2) (hb2 : parseHexDigit b2 = some y2)
    (hc2 : parseHexDigit c3 = some z2) (hd2 : parseHexDigit d2 = some w2)
    (hhi : 55296 ≤ ((x * 16 + y) * 16 + z) * 16 + w ∧
      ((x * 16 + y) * 16 + z) * 16 + w ≤ 56319)
    (hlo : 56320 ≤ ((x2 * 16 + y2) * 16 + z2) * 16 + w2 ∧
      ((x2 * 16 + y2) * 16 + z2) * 16 + w2 ≤ 57343) :
    parseStringBody (f + 1)
      ('\\' :: 'u' :: a :: b :: c2 :: d :: '\\' :: 'u' :: a2 :: b2 :: c3 :: d2 :: cs5) =
      (parseStringBody f cs5).map fun lr =>
        (Char.ofNat (65536 + (((x * 16 + y) * 16 + z) * 16 + w - 55296) * 1024 +
          (((x2 * 16 + y2) * 16 + z2) * 16 + w2 - 56320)) :: lr.1, lr.2) := by
  have hin : 55296 ≤ ((x * 16 + y) * 16 + z) * 16 + w ∧
      ((x * 16 + y) * 16 + z) * 16 + w ≤ 57343 := ⟨hhi.1, by omega⟩
  simp [parseStringBody, ha, hb, hc, hd, ha2, hb2, hc2, hd2, hin, hhi.2, hlo]

theorem parseStringBody_escChar (c : Char) (t : List Char) (f : Nat) :
    parseStringBody (f + 1) (escChar c ++ t) =
      (parseStringBody f t).map fun lr => (c :: lr.1, lr.2) := by
  have hlt := char_toNat_lt c
  have hsur := char_toNat_not_surrogate c
  by_cases hq : c = '"'
  · subst hq; simp [escChar, parseStringBody]
  by_cases hbs : c = '\\'
  · subst hbs; simp [escChar, parseStringBody]
  by_cases h8 : c.toNat = 8
  · have hc : Char.ofNat 8 = c := by rw [← h8, Char.ofNat_toNat]
    subst hc
    simp [escChar, parseStringBody]
  by_cases h9 : c.toNat = 9
  · have hc : Char.ofNat 9 = c := by rw [← h9, Char.ofNat_toNat]
    subst hc
    simp [escChar, parseStringBody]
  by_cases h10 : c.toNat = 10
  · have hc : Char.ofNat 10 = c := by rw [← h10, Char.ofNat_toNat]
    subst hc
    simp [escChar, parseStringBody]
  by_cases h12 : c.toNat = 12
  · have hc : Char.ofNat 12 = c := by rw [← h12, Char.ofNat_toNat]
    subst hc
    simp [escChar, parseStringBody]
  by_cases h13 : c.toNat = 13
  · have hc : Char.ofNat 13 = c := by rw [← h13, Char.ofNat_toNat]
    subst hc
    simp [escChar, parseStringBody]
  by_cases h32 : c.toNat < 32
  · have hesc : escChar c ++ t = '\\' :: 'u' :: hexDigitChar (c.toNat / 4096 % 16) ::
        hexDigitChar (c.toNat / 256 % 16) :: hexDigitChar (c.toNat / 16 % 16) ::
        hexDigitChar (c.toNat % 16) :: t := by
      simp [escChar, hq, hbs, h8, h9, h10, h12, h13, h32, hex4]
    rw [hesc]
    rw [parseStringBody_unicode f _ _ _ _ t _ _ _ _
      (parseHexDigit_hexDigitChar _ (by omega)) (parseHexDigit_hexDigitChar _ (by omega))
      (parseHexDigit_hexDigitChar _ (by omega)) (parseHexDigit_hexDigitChar _ (by omega))
      (by omega)]
    have hfin : ((c.toNat / 4096 % 16 * 16 + c.toNat / 256 % 16) * 16 + c.toNat / 16 % 16) * 16 +
        c.toNat % 16 = c.toNat := by omega
    simp only [hfin, Char.ofNat_toNat]
  by_cases h127 : c.toNat < 127
  · have hws : escChar c = [c] := by
      simp [escChar, hq, hbs, h8, h9, h10, h12, h13, h32, h127]
    rw [hws]
    have hnq : ¬(c = '"') := hq
    have hnb : ¬(c = '\\') := hbs
    have hn32 : ¬(c.toNat < 32) := h32
    simp [parseStringBody, hnq, hnb, hn32]
  by_cases hbmp : c.toNat < 65536
  · have hesc : escChar c ++ t = '\\' :: 'u' :: hexDigitChar (c.toNat / 4096 % 16) ::
        hexDigitChar (c.toNat / 256 % 16) :: hexDigitChar (c.toNat / 16 % 16) ::
        hexDigitChar (c.toNat % 16) :: t := by
      simp [escChar, hq, hbs, h8, h9, h10, h12, h13, h32, h127, hbmp, hex4]
    rw [hesc]
    rw [parseStringBody_unicode f _ _ _ _ t _ _ _ _
      (parseHexDigit_hexDigitChar _ (by omega)) (parseHexDigit_hexDigitChar _ (by omega))
      (parseHexDigit_hexDigitChar _ (by omega)) (parseHexDigit_hexDigitChar _ (by omega))
      (by omega)]
    have hfin : ((c.toNat / 4096 % 16 * 16 + c.toNat / 256 % 16) * 16 + c.toNat / 16 % 16) * 16 +
        c.toNat % 16 = c.toNat := by omega
    simp only [hfin, Char.ofNat_toNat]
  · have hesc : escChar c ++ t = '\\' :: 'u' ::
        hexDigitChar ((55296 + (c.toNat - 65536) / 1024) / 4096 % 16) ::
        hexDigitChar ((55296 + (c.toNat - 65536) / 1024) / 256 % 16) ::
        hexDigitChar ((55296 + (c.toNat - 65536) / 1024) / 16 % 16) ::
        hexDigitChar ((55296 + (c.toNat - 65536) / 1024) % 16) :: '\\' :: 'u' ::
        hexDigitChar ((56320 + (c.toNat - 65536) % 1024) / 4096 % 16) ::
        hexDigitChar ((56320 + (c.toNat - 65536) % 1024) / 256 % 16) ::
        hexDigitChar ((56320 + (c.toNat - 65536) % 1024) / 16 % 16) ::
        hexDigitChar ((56320 + (c.toNat - 65536) % 1024) % 16) :: t := by
      simp [escChar, hq, hbs, h8, h9, h10, h12, h13, h32, h127, hbmp, hex4]
    rw [hesc]
    rw [parseStringBody_surrogatePair f _ _ _ _ _ _ _ _ t _ _ _ _ _ _ _ _
      (parseHexDigit_hexDigitChar _ (by omega)) (parseHexDigit_hexDigitChar _ (by omega))
      (parseHexDigit_hexDigitChar _ (by omega)) (parseHexDigit_hexDigitChar _ (by omega))
      (parseHexDigit_hexDigitChar _ (by omega)) (parseHexDigit_hexDigitChar _ (by omega))
      (parseHexDigit_hexDigitChar _ (by omega)) (parseHexDigit_hexDigitChar _ (by omega))
      (by constructor <;> omega) (by constructor <;> omega)]
    have hfin : 65536 + ((((55296 + (c.toNat - 65536) / 1024) / 4096 % 16 * 16 +
        (55296 + (c.toNat - 65536) / 1024) / 256 % 16) * 16 +
        (55296 + (c.toNat - 65536) / 1024) / 16 % 16) * 16 +
        (55296 + (c.toNat - 65536) / 1024) % 16 - 55296) * 1024 +
        ((((56320 + (c.toNat - 65536) % 1024) / 4096 % 16 * 16 +
        (56320 + (c.toNat - 65536) % 1024) / 256 % 16) * 16 +
        (56320 + (c.toNat - 65536) % 1024) / 16 % 16) * 16 +
        (56320 + (c.toNat - 65536) % 1024) % 16 - 56320) = c.toNat := by omega
    simp only [hfin, Char.ofNat_toNat]


theorem parseStringBody_dump (l : List Char) : ∀ (f : Nat) (rest : List Char),
    l.length + 1 ≤ f →
    parseStringBody f ((l.map escChar).flatten ++ '"' :: rest) = some (l, rest) := by
  induction l with
  | nil =>
    intro f rest hf
    obtain ⟨g, rfl⟩ : ∃ g, f = g + 1 := ⟨f - 1, by omega⟩
    simp [parseStringBody]
  | cons c l ih =>
    intro f rest hf
    obtain ⟨g, rfl⟩ : ∃ g, f = g + 1 := ⟨f - 1, by omega⟩
    simp only [List.map_cons, List.flatten_cons, List.append_assoc]
    rw [parseStringBody_escChar]
    rw [ih g rest (by simp at hf; omega)]
    rfl

theorem escChar_ne_nil (c : Char) : escChar c ≠ [] := by
  unfold escChar
  dsimp only
  intro h
  repeat' split at h
  all_goals simp at h

theorem flatten_escChar_length (l : List Char) :
    l.length ≤ ((l.map escChar).flatten).length := by
  induction l with
  | nil => simp
  | cons c l ih =>
    have h1 : 0 < (escChar c).length := List.length_pos.mpr (escChar_ne_nil c)
    simp only [List.map_cons, List.flatten_cons, List.length_append, List.length_cons]
    omega

theorem stringMk_data (s : String) : String.mk s.data = s := rfl

theorem digitChar_parse_facts (d : Nat) (h : d < 10) :
    jsonWs (digitChar d) = false ∧ digitChar d ≠ 'n' ∧ digitChar d ≠ 't' ∧
    digitChar d ≠ 'f' ∧ digitChar d ≠ '"' ∧ digitChar d ≠ '[' ∧ digitChar d ≠ lbrace ∧
    digitChar d ≠ ']' ∧ digitChar d ≠ rbrace ∧ (digitChar d).isDigit = true ∧
    digitChar d ≠ '-' := by
  interval_cases d <;> decide

theorem dumpVal_head (v : JVal) :
    ∃ c t2, dumpVal v = c :: t2 ∧ jsonWs c = false ∧ c ≠ ']' ∧ c ≠ rbrace := by
  cases v with
  | num i =>
    by_cases hneg : i < 0
    · refine ⟨'-', natDigits i.natAbs, ?_, by decide, by decide, by decide⟩
      simp [dumpVal, intDigits, hneg]
    · obtain ⟨d, t, hEq, hd, _⟩ := natDigits_shape i.natAbs
      obtain ⟨hws, _, _, _, _, _, _, hne1, hne2, _, _⟩ := digitChar_parse_facts d hd
      refine ⟨digitChar d, t, ?_, hws, hne1, hne2⟩
      simp [dumpVal, intDigits, hneg, hEq]
  | null =>
    refine ⟨'n', _, rfl, ?_, ?_, ?_⟩ <;> decide
  | bool b =>
    cases b
    case false => refine ⟨'f', _, rfl, ?_, ?_, ?_⟩ <;> decide
    case true => refine ⟨'t', _, rfl, ?_, ?_, ?_⟩ <;> decide
  | str s =>
    refine ⟨'"', _, rfl, ?_, ?_, ?_⟩ <;> decide
  | arr xs =>
    cases xs
    case nil => refine ⟨'[', _, rfl, ?_, ?_, ?_⟩ <;> decide
    case cons x xs => refine ⟨'[', _, rfl, ?_, ?_, ?_⟩ <;> decide
  | obj kvs =>
    cases kvs
    case nil => refine ⟨lbrace, _, rfl, ?_, ?_, ?_⟩ <;> decide
    case cons p ps => refine ⟨lbrace, _, rfl, ?_, ?_, ?_⟩ <;> decide

theorem dumpPair_shape (p : String × JVal) :
    dumpPair p = '"' :: (((p.1.data.map escChar).flatten ++ ['"']) ++
      ':' :: ' ' :: dumpVal p.2) := by
  obtain ⟨k, v⟩ := p
  simp [dumpPair, dumpString]

theorem parseVal_ws (f : Nat) (cs : List Char) : parseVal f (' ' :: cs) = parseVal f cs := by
  cases f with
  | zero => rfl
  | succ g => simp only [parseVal, skipWs_space]

theorem parseArrRest_ws (f : Nat) (cs : List Char) :
    parseArrRest f (' ' :: cs) = parseArrRest f cs := by
  cases f with
  | zero => rfl
  | succ g => simp only [parseArrRest, parseVal_ws]

theorem parseObjRest_ws (f : Nat) (cs : List Char) :
    parseObjRest f (' ' :: cs) = parseObjRest f cs := by
  cases f with
  | zero => rfl
  | succ g => simp only [parseObjRest, skipWs_space]

/-- The characters of a non-empty array's elements (the part of `dumpVal`
between the brackets). -/
def dumpElems : List JVal → List Char
  | [] => []
  | x :: xs => dumpVal x ++ dumpArrTail xs

/-- The characters of a non-empty object's members (the part of `dumpVal`
between the braces). -/
def dumpMembers : List (String × JVal) → List Char
  | [] => []
  | p :: ps => dumpPair p ++ dumpObjTail ps

mutual

/-- Number of mutual-recursion steps `parseVal` needs to parse the dump of
a value; used only to discharge the fuel bound in the round-trip proof. -/
def jNodes : JVal → Nat
  | .arr l => 1 + arrNodes l
  | .obj l => 1 + objNodes l
  | _ => 1

/-- Recursion-step count for the elements of an array dump. -/
def arrNodes : List JVal → Nat
  | [] => 0
  | x :: xs => 1 + jNodes x + arrNodes xs

/-- Recursion-step count for the members of an object dump. -/
def objNodes : List (String × JVal) → Nat
  | [] => 0
  | (_, v) :: ps => 1 + jNodes v + objNodes ps

end

theorem dumpString_length (s : String) :
    (dumpString s).length = ((s.data.map escChar).flatten).length + 2 := by
  simp [dumpString]

theorem dumpPair_length (p : String × JVal) :
    (dumpPair p).length = (dumpString p.1).length + 2 + (dumpVal p.2).length := by
  obtain ⟨k, v⟩ := p
  simp [dumpPair]
  omega

mutual

theorem jNodes_le : ∀ v : JVal, jNodes v ≤ (dumpVal v).length + 1
  | .null => by simp [jNodes, dumpVal]
  | .bool b => by cases b <;> simp [jNodes, dumpVal]
  | .num i => by simp [jNodes]
  | .str s => by simp [jNodes]
  | .arr [] => by simp [jNodes, arrNodes]
  | .arr (x :: xs) => by
      have h1 := jNodes_le x
      have h2 := arrNodes_le xs
      simp only [jNodes, arrNodes, dumpVal, List.length_cons, List.length_append,
        List.length_singleton]
      omega
  | .obj [] => by simp [jNodes, objNodes]
  | .obj (p :: ps) => by
      obtain ⟨k, v⟩ := p
      have h1 := jNodes_le v
      have h2 := objNodes_le ps
      have h3 := dumpPair_length (k, v)
      simp only [jNodes, objNodes, dumpVal, List.length_cons, List.length_append,
        List.length_singleton, dumpString_length] at h3 ⊢
      omega

theorem arrNodes_le : ∀ l : List JVal, arrNodes l ≤ (dumpArrTail l).length
  | [] => by simp [arrNodes, dumpArrTail]
  | x :: xs => by
      have h1 := jNodes_le x
      have h2 := arrNodes_le xs
      simp only [arrNodes, dumpArrTail, List.length_cons, List.length_append]
      omega

theorem objNodes_le : ∀ l : List (String × JVal), objNodes l ≤ (dumpObjTail l).length
  | [] => by simp [objNodes, dumpObjTail]
  | p :: ps => by
      obtain ⟨k, v⟩ := p
      have h1 := jNodes_le v
      have h2 := objNodes_le ps
      have h3 := dumpPair_length (k, v)
      simp only [objNodes, dumpObjTail, List.length_cons, List.length_append,
        dumpString_length] at h3 ⊢
      omega

end

theorem parseVal_quote (g : Nat) (cs : List Char) :
    parseVal (g + 1) ('"' :: cs) =
      (match parseStringBody (cs.length + 1) cs with
        | some (l, r) => some (JVal.str (String.mk l), r)
        | none => none) := rfl

theorem parseVal_lbracket (g : Nat) (cs : List Char) :
    parseVal (g + 1) ('[' :: cs) =
      (match skipWs cs with
        | c2 :: r2 =>
          if c2 = ']' then some (.arr [], r2)
          else
            match parseArrRest g cs with
            | some (vs, r) => some (.arr vs, r)
            | none => none
        | [] => none) := rfl

theorem parseVal_lbraceHead (g : Nat) (cs : List Char) :
    parseVal (g + 1) (lbrace :: cs) =
      (match skipWs cs with
        | c2 :: r2 =>
          if c2 = rbrace then some (.obj [], r2)
          else
            match parseObjRest g cs with
            | some (ps, r) => some (.obj ps, r)
            | none => none
        | [] => none) := rfl

mutual

theorem parseVal_dump : ∀ (v : JVal) (f : Nat) (rest : List Char),
    jNodes v ≤ f → numSafe rest = true →
    parseVal f (dumpVal v ++ rest) = some (v, rest)
  | .null, f, rest, h1, h2 => by
    obtain ⟨g, rfl⟩ : ∃ g, f = g + 1 := ⟨f - 1, by simp [jNodes] at h1; omega⟩
    show parseVal (g + 1) ('n' :: 'u' :: 'l' :: 'l' :: rest) = some (.null, rest)
    simp [parseVal, skipWs, jsonWs]
  | .bool true, f, rest, h1, h2 => by
    obtain ⟨g, rfl⟩ : ∃ g, f = g + 1 := ⟨f - 1, by simp [jNodes] at h1; omega⟩
    show parseVal (g + 1) ('t' :: 'r' :: 'u' :: 'e' :: rest) = some (.bool true, rest)
    simp [parseVal, skipWs, jsonWs]
  | .bool false, f, rest, h1, h2 => by
    obtain ⟨g, rfl⟩ : ∃ g, f = g + 1 := ⟨f - 1, by simp [jNodes] at h1; omega⟩
    show parseVal (g + 1) ('f' :: 'a' :: 'l' :: 's' :: 'e' :: rest) = some (.bool false, rest)
    simp [parseVal, skipWs, jsonWs]
  | .num i, f, rest, h1, h2 => by
    obtain ⟨g, rfl⟩ : ∃ g, f = g + 1 := ⟨f - 1, by simp [jNodes] at h1; omega⟩
    have hPI := parseIntTok_intDigits i rest h2
    by_cases hneg : i < 0
    · have hi : intDigits i = '-' :: natDigits i.natAbs := by simp [intDigits, hneg]
      have hd : dumpVal (.num i) ++ rest = '-' :: (natDigits i.natAbs ++ rest) := by
        simp [dumpVal, hi]
      rw [hd]
      rw [hi] at hPI
      simp only [List.cons_append] at hPI
      simp only [parseVal]
      rw [skipWs_not_ws _ _ (by decide)]
      simp [lbrace, hPI]
    · have hi : intDigits i = natDigits i.natAbs := by simp [intDigits, hneg]
      obtain ⟨d, t, hEq, hd10, _⟩ := natDigits_shape i.natAbs
      obtain ⟨hws, hn, ht, hf2, hq, hlb, hlbr, _, _, hdig, hmin⟩ := digitChar_parse_facts d hd10
      have hd : dumpVal (.num i) ++ rest = digitChar d :: (t ++ rest) := by
        simp [dumpVal, hi, hEq]
      rw [hd]
      rw [hi, hEq] at hPI
      simp only [List.cons_append] at hPI
      simp only [parseVal]
      rw [skipWs_not_ws _ _ hws]
      simp [hn, ht, hf2, hq, hlb, hlbr, hdig, hPI]
  | .str s, f, rest, h1, h2 => by
    obtain ⟨g, rfl⟩ : ∃ g, f = g + 1 := ⟨f - 1, by simp [jNodes] at h1; omega⟩
    have hd : dumpVal (.str s) ++ rest = '"' :: ((s.data.map escChar).flatten ++ '"' :: rest) := by
      simp [dumpVal, dumpString]
    rw [hd, parseVal_quote]
    have hPS := parseStringBody_dump s.data
      (((s.data.map escChar).flatten ++ '"' :: rest).length + 1) rest
      (by
        have h3 := flatten_escChar_length s.data
        rw [List.length_append, List.length_cons]
        omega)
    rw [hPS]
  | .arr [], f, rest, h1, h2 => by
    obtain ⟨g, rfl⟩ : ∃ g, f = g + 1 := ⟨f - 1, by simp [jNodes, arrNodes] at h1; omega⟩
    show parseVal (g + 1) ('[' :: ']' :: rest) = some (.arr [], rest)
    rw [parseVal_lbracket]
    simp [skipWs, jsonWs]
  | .arr (x :: xs), f, rest, h1, h2 => by
    have harr : arrNodes (x :: xs) ≤ f - 1 := by simp [jNodes] at h1; omega
    obtain ⟨g, rfl⟩ : ∃ g, f = g + 1 := ⟨f - 1, by simp [jNodes] at h1; omega⟩
    have hd : dumpVal (.arr (x :: xs)) ++ rest = '[' :: (dumpElems (x :: xs) ++ ']' :: rest) := by
      simp [dumpVal, dumpElems, List.append_assoc]
    obtain ⟨c2, t2, hx, hws, hbr1, hbr2⟩ := dumpVal_head x
    have hin : dumpElems (x :: xs) ++ ']' :: rest =
        c2 :: (t2 ++ (dumpArrTail xs ++ ']' :: rest)) := by
      simp [dumpElems, hx]
    have hAR := parseArrRest_dump (x :: xs) g rest (by simpa using harr) h2 (by simp)
    rw [hd, parseVal_lbracket, hin]
    rw [hin] at hAR
    rw [skipWs_not_ws c2 _ hws]
    simp [hbr1, hAR]
  | .obj [], f, rest, h1, h2 => by
    obtain ⟨g, rfl⟩ : ∃ g, f = g + 1 := ⟨f - 1, by simp [jNodes, objNodes] at h1; omega⟩
    show parseVal (g + 1) (lbrace :: rbrace :: rest) = some (.obj [], rest)
    rw [parseVal_lbraceHead]
    simp [skipWs, jsonWs, rbrace]
  | .obj (p :: ps), f, rest, h1, h2 => by
    have hobj : objNodes (p :: ps) ≤ f - 1 := by simp [jNodes] at h1; omega
    obtain ⟨g, rfl⟩ : ∃ g, f = g + 1 := ⟨f - 1, by simp [jNodes] at h1; omega⟩
    have hd : dumpVal (.obj (p :: ps)) ++ rest =
        lbrace :: (dumpMembers (p :: ps) ++ rbrace :: rest) := by
      simp [dumpVal, dumpMembers, List.append_assoc]
    have hin : dumpMembers (p :: ps) ++ rbrace :: rest =
        '"' :: ((p.1.data.map escChar).flatten ++ '"' ::
          (':' :: ' ' :: (dumpVal p.2 ++ (dumpObjTail ps ++ rbrace :: rest)))) := by
      obtain ⟨k, v⟩ := p
      simp [dumpMembers, dumpPair, dumpString, List.append_assoc]
    have hOR := parseObjRest_dump (p :: ps) g rest (by simpa using hobj) h2 (by simp)
    rw [hd, parseVal_lbraceHead, hin]
    rw [hin] at hOR
    rw [skipWs_not_ws '"' _ (by decide)]
    have hne : ('"' : Char) ≠ rbrace := by decide
    simp only [List.append_assoc, List.cons_append, List.singleton_append] at hOR ⊢
    simp [hne, hOR]

theorem parseArrRest_dump : ∀ (l : List JVal) (f : Nat) (rest : List Char),
    arrNodes l ≤ f → numSafe rest = true → l ≠ [] →
    parseArrRest f (dumpElems l ++ ']' :: rest) = some (l, rest)
  | [], _, _, _, _, h3 => absurd rfl h3
  | x :: xs, f, rest, h1, h2, _ => by
    have hjx : jNodes x ≤ f - 1 := by simp [arrNodes] at h1; omega
    obtain ⟨g, rfl⟩ : ∃ g, f = g + 1 := ⟨f - 1, by simp [arrNodes] at h1; omega⟩
    simp only [parseArrRest]
    have hin : dumpElems (x :: xs) ++ ']' :: rest =
        dumpVal x ++ (dumpArrTail xs ++ ']' :: rest) := by
      simp [dumpElems, List.append_assoc]
    rw [hin]
    cases xs with
    | nil =>
      have hPV := parseVal_dump x g (']' :: rest) (by simpa using hjx) rfl
      rw [show dumpArrTail ([] : List JVal) ++ ']' :: rest = ']' :: rest by simp [dumpArrTail]]
      rw [hPV]
      simp [skipWs, jsonWs]
    | cons y ys =>
      have harr2 : arrNodes (y :: ys) ≤ g := by simp [arrNodes] at h1 ⊢; omega
      have hrw : dumpArrTail (y :: ys) ++ ']' :: rest =
          ',' :: ' ' :: (dumpElems (y :: ys) ++ ']' :: rest) := by
        simp [dumpArrTail, dumpElems, List.append_assoc]
      rw [hrw]
      have hPV := parseVal_dump x g (',' :: ' ' :: (dumpElems (y :: ys) ++ ']' :: rest))
        (by simpa using hjx) rfl
      rw [hPV]
      simp only []
      rw [skipWs_not_ws ',' _ (by decide)]
      simp only []
      rw [show parseArrRest g (' ' :: (dumpElems (y :: ys) ++ ']' :: rest)) =
        parseArrRest g (dumpElems (y :: ys) ++ ']' :: rest) from parseArrRest_ws g _]
      rw [parseArrRest_dump (y :: ys) g rest harr2 h2 (by simp)]

theorem parseObjRest_dump : ∀ (l : List (String × JVal)) (f : Nat) (rest : List Char),
    objNodes l ≤ f → numSafe rest = true → l ≠ [] →
    parseObjRest f (dumpMembers l ++ rbrace :: rest) = some (l, rest)
  | [], _, _, _, _, h3 => absurd rfl h3
  | (k, v) :: ps, f, rest, h1, h2, _ => by
    have hjv : jNodes v ≤ f - 1 := by simp [objNodes] at h1; omega
    obtain ⟨g, rfl⟩ : ∃ g, f = g + 1 := ⟨f - 1, by simp [objNodes] at h1; omega⟩
    simp only [parseObjRest]
    have hin : dumpMembers ((k, v) :: ps) ++ rbrace :: rest =
        '"' :: ((k.data.map escChar).flatten ++ '"' ::
          (':' :: ' ' :: (dumpVal v ++ (dumpObjTail ps ++ rbrace :: rest)))) := by
      simp [dumpMembers, dumpPair, dumpString, List.append_assoc]
    rw [hin]
    rw [skipWs_not_ws '"' _ (by decide)]
    simp only []
    have hPS := parseStringBody_dump k.data
      (((k.data.map escChar).flatten ++ '"' ::
        (':' :: ' ' :: (dumpVal v ++ (dumpObjTail ps ++ rbrace :: rest)))).length + 1)
      (':' :: ' ' :: (dumpVal v ++ (dumpObjTail ps ++ rbrace :: rest)))
      (by
        have h3 := flatten_escChar_length k.data
        rw [List.length_append, List.length_cons]
        omega)
    rw [hPS]
    simp only []
    rw [skipWs_not_ws ':' _ (by decide)]
    simp only []
    rw [show parseVal g (' ' :: (dumpVal v ++ (dumpObjTail ps ++ rbrace :: rest))) =
      parseVal g (dumpVal v ++ (dumpObjTail ps ++ rbrace :: rest)) from parseVal_ws g _]
    cases ps with
    | nil =>
      have hPV := parseVal_dump v g (rbrace :: rest) (by simpa using hjv)
        (by simp [numSafe, rbrace])
      rw [show dumpObjTail ([] : List (String × JVal)) ++ rbrace :: rest = rbrace :: rest by
        simp [dumpObjTail]]
      rw [hPV]
      simp [skipWs, jsonWs, rbrace, stringMk_data]
    | cons q qs =>
      have hobj2 : objNodes (q :: qs) ≤ g := by simp [objNodes] at h1 ⊢; omega
      have hrw : dumpObjTail (q :: qs) ++ rbrace :: rest =
          ',' :: ' ' :: (dumpMembers (q :: qs) ++ rbrace :: rest) := by
        simp [dumpObjTail, dumpMembers, List.append_assoc]
      rw [hrw]
      have hPV := parseVal_dump v g (',' :: ' ' :: (dumpMembers (q :: qs) ++ rbrace :: rest))
        (by simpa using hjv) rfl
      rw [hPV]
      simp only []
      rw [skipWs_not_ws ',' _ (by decide)]
      simp only []
      rw [show parseObjRest g (' ' :: (dumpMembers (q :: qs) ++ rbrace :: rest)) =
        parseObjRest g (dumpMembers (q :: qs) ++ rbrace :: rest) from parseObjRest_ws g _]
      rw [parseObjRest_dump (q :: qs) g rest hobj2 h2 (by simp)]

end

/-- Round trip of the serializer and parser models: `json.loads(json.dumps(v))`
recovers `v` for every JSON value of the model.  This is what lets the cache
of `src/app.py` return exactly the dictionary that was stored. -/
theorem jsonLoads_jsonDumps (v : JVal) : jsonLoads (jsonDumps v) = some v := by
  unfold jsonLoads jsonDumps
  have hdata : (String.mk (dumpVal v)).data = dumpVal v := rfl
  rw [hdata]
  have h1 := parseVal_dump v ((dumpVal v).length + 1) []
    (le_trans (jNodes_le v) (by omega)) rfl
  rw [List.append_nil] at h1
  rw [h1]
  simp [skipWs]

/-- Reduction modulo `2 ^ 32`, the word size of MD5. -/
def mask32 (n : Nat) : Nat := n % 4294967296

/-- 32-bit left rotation of a word `x < 2 ^ 32` by `c` bits. -/
def rotl32 (x c : Nat) : Nat := mask32 (x * 2 ^ c + x / 2 ^ (32 - c))

/-- The per-round left-rotation amounts of MD5 (RFC 1321). -/
def md5s : List Nat :=
  [7, 12, 17, 22, 7, 12, 17, 22, 7, 12, 17, 22, 7, 12, 17, 22,
   5, 9, 14, 20, 5, 9, 14, 20, 5, 9, 14, 20, 5, 9, 14, 20,
   4, 11, 16, 23, 4, 11, 16, 23, 4, 11, 16, 23, 4, 11, 16, 23,
   6, 10, 15, 21, 6, 10, 15, 21, 6, 10, 15, 21, 6, 10, 15, 21]

/-- The sine-derived additive constants of MD5 (RFC 1321). -/
def md5K : List Nat :=
  [0xd76aa478, 0xe8c7b756, 0x242070db, 0xc1bdceee,
   0xf57c0faf, 0x4787c62a, 0xa8304613, 0xfd469501,
   0x698098d8, 0x8b44f7af, 0xffff5bb1, 0x895cd7be,
   0x6b901122, 0xfd987193, 0xa679438e, 0x49b40821,
   0xf61e2562, 0xc040b340, 0x265e5a51, 0xe9b6c7aa,
   0xd62f105d, 0x2441453, 0xd8a1e681, 0xe7d3fbc8,
   0x21e1cde6, 0xc33707d6, 0xf4d50d87, 0x455a14ed,
   0xa9e3e905, 0xfcefa3f8, 0x676f02d9, 0x8d2a4c8a,
   0xfffa3942, 0x8771f681, 0x6d9d6122, 0xfde5380c,
   0xa4beea44, 0x4bdecfa9, 0xf6bb4b60, 0xbebfbc70,
   0x289b7ec6, 0xeaa127fa, 0xd4ef3085, 0x4881d05,
   0xd9d4d039, 0xe6db99e5, 0x1fa27cf8, 0xc4ac5665,
   0xf4292244, 0x432aff97, 0xab9423a7, 0xfc93a039,
   0x655b59c3, 0x8f0ccc92, 0xffeff47d, 0x85845dd1,
   0x6fa87e4f, 0xfe2ce6e0, 0xa3014314, 0x4e0811a1,
   0xf7537e82, 0xbd3af235, 0x2ad7d2bb, 0xeb86d391]

/-- Little-endian 32-bit word `j` of a 64-byte block. -/
def leWord (block : List Nat) (j : Nat) : Nat :=
  block.getD (4 * j) 0 + block.getD (4 * j + 1) 0 * 256 +
    block.getD (4 * j + 2) 0 * 65536 + block.getD (4 * j + 3) 0 * 16777216

/-- One of the 64 MD5 rounds applied to the running state. -/
def md5round (block : List Nat) (st : Nat × Nat × Nat × Nat) (i : Nat) :
    Nat × Nat × Nat × Nat :=
  let a := st.1
  let b := st.2.1
  let c := st.2.2.1
  let d := st.2.2.2
  let fg :=
    if i < 16 then ((b &&& c) ||| ((b ^^^ 4294967295) &&& d), i)
    else if i < 32 then ((d &&& b) ||| ((d ^^^ 4294967295) &&& c), (5 * i + 1) % 16)
    else if i < 48 then (b ^^^ c ^^^ d, (3 * i + 5) % 16)
    else (c ^^^ (b ||| (d ^^^ 4294967295)), (7 * i) % 16)
  let f2 := mask32 (fg.1 + a + md5K.getD i 0 + leWord block fg.2)
  (d, mask32 (b + rotl32 f2 (md5s.getD i 0)), b, c)

/-- Process one 64-byte block, updating the four state words. -/
def md5chunk (st : Nat × Nat × Nat × Nat) (block : List Nat) : Nat × Nat × Nat × Nat :=
  let r := (List.range 64).foldl (md5round block) st
  (mask32 (st.1 + r.1), mask32 (st.2.1 + r.2.1),
   mask32 (st.2.2.1 + r.2.2.1), mask32 (st.2.2.2 + r.2.2.2))

/-- Fold over successive 64-byte blocks; the fuel strictly exceeds the
number of remaining bytes, which is always enough since each step consumes
a full block. -/
def md5chunksAux : Nat → (Nat × Nat × Nat × Nat) → List Nat → Nat × Nat × Nat × Nat
  | 0, st, _ => st
  | _ + 1, st, [] => st
  | f + 1, st, bs => md5chunksAux f (md5chunk st (bs.take 64)) (bs.drop 64)

/-- The eight little-endian bytes of the 64-bit message-length field. -/
def le8 (n : Nat) : List Nat :=
  [n % 256, n / 256 % 256, n / 65536 % 256, n / 16777216 % 256,
   n / 4294967296 % 256, n / 1099511627776 % 256,
   n / 281474976710656 % 256, n / 72057594037927936 % 256]

/-- MD5 padding: a `0x80` byte, zeros to 56 mod 64, then the original
length in bits as a little-endian 64-bit number. -/
def md5pad (msg : List Nat) : List Nat :=
  msg ++ 128 :: List.replicate ((55 + 64 - msg.length % 64) % 64) 0 ++
    le8 (mask32 (msg.length) * 8 + (msg.length / 4294967296) * 8 * 4294967296)

/-- Two lowercase hex digits of a byte. -/
def byteHex (b : Nat) : List Char := [hexDigitChar (b / 16 % 16), hexDigitChar (b % 16)]

/-- Eight lowercase hex digits of a 32-bit word, little-endian byte order
as in an MD5 digest string. -/
def word32Hex (w : Nat) : List Char :=
  byteHex (w % 256) ++ byteHex (w / 256 % 256) ++ byteHex (w / 65536 % 256) ++
    byteHex (w / 16777216 % 256)

/-- The MD5 digest of a byte string, as a lowercase hexadecimal string
(the value of `hashlib.md5(bytes).hexdigest()`). -/
def md5hexBytes (msg : List Nat) : String :=
  let padded := md5pad msg
  let st := md5chunksAux (padded.length + 1)
    (1732584193, 4023233417, 2562383102, 271733878) padded
  String.mk (word32Hex st.1 ++ word32Hex st.2.1 ++ word32Hex st.2.2.1 ++ word32Hex st.2.2.2)

/-- UTF-8 encoding of one character. -/
def utf8Bytes (c : Char) : List Nat :=
  let n := c.toNat
  if n < 128 then [n]
  else if n < 2048 then [192 + n / 64, 128 + n % 64]
  else if n < 65536 then [224 + n / 4096, 128 + n / 64 % 64, 128 + n % 64]
  else [240 + n / 262144, 128 + n / 4096 % 64, 128 + n / 64 % 64, 128 + n % 64]

/-- UTF-8 encoding of a string (Python's `s.encode("utf-8")`). -/
def strUtf8 (s : String) : List Nat := (s.data.map utf8Bytes).flatten

/-- The value of `hashlib.md5(s.encode("utf-8")).hexdigest()`. -/
def md5hex (s : String) : String := md5hexBytes (strUtf8 s)

/-- A row of a sqlite cache table of `src/app.py`: primary key, stored
`TEXT` value, and `expires_at` integer timestamp. -/
abbrev CacheTable := List (String × String × Int)

/-- The row with the given primary key
(`SELECT value, expires_at FROM ... WHERE key = ?`). -/
def tableFind (k : String) : CacheTable → Option (String × Int)
  | [] => none
  | (k2, v, e) :: rows => if k2 = k then some (v, e) else tableFind k rows

/-- `REPLACE INTO`: delete any row with the same primary key and insert the
new row. -/
def tableReplace (k v : String) (e : Int) (t : CacheTable) : CacheTable :=
  (t.filter fun r => r.1 != k) ++ [(k, v, e)]

/-- The default TTL of the store, `CACHE_TTL_SECONDS` in `src/app.py`
(env default `604800`, seven days). -/
def CACHE_TTL_SECONDS : Int := 604800

/-- Model of `cache_set` in `src/app.py`: store `json.dumps(value)` under
`key` with `expires_at = int((utcnow + ttl).timestamp()) = now + ttl`,
replacing any prior row.  `now` is the integer-second timestamp the source
takes from `datetime.utcnow()`. -/
def cache_set (key : String) (value : JVal) (ttl_seconds : Int) (now : Int)
    (t : CacheTable) : CacheTable :=
  tableReplace key (jsonDumps value) (now + ttl_seconds) t

/-- Model of `cache_get` in `src/app.py`: look the key up, treat a missing
row or a strictly-past expiry (`expires_at < now`) as absent, and return
`json.loads` of the stored text, mapping a parse failure (the caught
exception) to absent. -/
def cache_get (key : String) (now : Int) (t : CacheTable) : Option JVal :=
  match tableFind key t with
  | none => none
  | some (value_str, expires_at) =>
    if expires_at < now then none
    else jsonLoads value_str

/-- Model of `detail_cache_set` in `src/app.py` (the
`property_detail_cache` table keyed by `property_id`); identical logic to
`cache_set` over the second, independent table. -/
def detail_cache_set (property_id : String) (value : JVal) (ttl_seconds : Int) (now : Int)
    (t : CacheTable) : CacheTable :=
  tableReplace property_id (jsonDumps value) (now + ttl_seconds) t

/-- Model of `detail_cache_get` in `src/app.py`; identical logic to
`cache_get` over the `property_detail_cache` table. -/
def detail_cache_get (property_id : String) (now : Int) (t : CacheTable) : Option JVal :=
  match tableFind property_id t with
  | none => none
  | some (value_str, expires_at) =>
    if expires_at < now then none
    else jsonLoads value_str

/-- Lexicographic code-point comparison of character lists, the order
Python uses on `str` when `json.dumps(..., sort_keys=True)` sorts the
keys of a dictionary. -/
def strLtChars : List Char → List Char → Bool
  | [], [] => false
  | [], _ :: _ => true
  | _ :: _, [] => false
  | a :: as, b :: bs =>
    if a.toNat < b.toNat then true
    else if b.toNat < a.toNat then false
    else strLtChars as bs

/-- Non-strict key order derived from `strLtChars`. -/
def strLeKey (a b : String) : Bool := !(strLtChars b.data a.data)

theorem strLtChars_asymm : ∀ as bs, strLtChars as bs = true → strLtChars bs as = true → False
  | [], [], h1, _ => by simp [strLtChars] at h1
  | [], _ :: _, _, h2 => by simp [strLtChars] at h2
  | _ :: _, [], h1, _ => by simp [strLtChars] at h1
  | a :: as, b :: bs, h1, h2 => by
    by_cases hab : a.toNat < b.toNat
    · simp [strLtChars, hab, (show ¬(b.toNat < a.toNat) by omega)] at h2
    · by_cases hba : b.toNat < a.toNat
      · simp [strLtChars, hab, hba] at h1
      · simp [strLtChars, hab, hba] at h1 h2
        exact strLtChars_asymm as bs h1 h2

theorem strLtChars_trich : ∀ as bs : List Char,
    strLtChars as bs = true ∨ strLtChars bs as = true ∨ as = bs
  | [], [] => by simp [strLtChars]
  | [], _ :: _ => by simp [strLtChars]
  | _ :: _, [] => by simp [strLtChars]
  | a :: as, b :: bs => by
    by_cases hab : a.toNat < b.toNat
    · exact Or.inl (by simp [strLtChars, hab])
    · by_cases hba : b.toNat < a.toNat
      · exact Or.inr (Or.inl (by simp [strLtChars, hba, (show ¬(a.toNat < b.toNat) by omega)]))
      · have hEq : a = b := by
          have h3 : a.toNat = b.toNat := by omega
          have h4 : a.val = b.val := by
            have h5 : a.val.toNat = b.val.toNat := h3
            exact UInt32.toNat.inj h5
          cases a; cases b; simp at h4; simp [h4]
        subst hEq
        rcases strLtChars_trich as bs with h | h | h
        · exact Or.inl (by simp [strLtChars, h])
        · exact Or.inr (Or.inl (by simp [strLtChars, h]))
        · exact Or.inr (Or.inr (by simp [h]))

theorem strLtChars_trans : ∀ as bs cs,
    strLtChars as bs = true → strLtChars bs cs = true → strLtChars as cs = true
  | as, [], cs, h1, h2 => by
    cases bs_eq : cs with
    | nil => cases as <;> simp_all [strLtChars]
    | cons c t => cases as <;> simp_all [strLtChars]
  | [], _ :: _, [], _, h2 => by simp [strLtChars] at h2
  | [], _ :: _, _ :: _, _, _ => by simp [strLtChars]
  | _ :: _, b :: bs, [], _, h2 => by simp [strLtChars] at h2
  | a :: as, b :: bs, c :: cs, h1, h2 => by
    simp only [strLtChars] at h1 h2 ⊢
    by_cases hab : a.toNat < b.toNat
    · by_cases hbc : b.toNat < c.toNat
      · simp [(show a.toNat < c.toNat by omega)]
      · by_cases hcb : c.toNat < b.toNat
        · simp [hbc, hcb] at h2
        · have : b.toNat = c.toNat := by omega
          simp [(show a.toNat < c.toNat by omega)]
    · by_cases hba : b.toNat < a.toNat
      · simp [hab, hba] at h1
      · have hab2 : a.toNat = b.toNat := by omega
        by_cases hbc : b.toNat < c.toNat
        · simp [(show a.toNat < c.toNat by omega)]
        · by_cases hcb : c.toNat < b.toNat
          · simp [hbc, hcb] at h2
          · simp [hab, hba] at h1
            simp [hbc, hcb] at h2
            have hac : a.toNat = c.toNat := by omega
            simp [(show ¬(a.toNat < c.toNat) by omega), hac]
            exact strLtChars_trans as bs cs h1 h2

/-- The non-strict order on dict items that `sorted` uses inside
`json.dumps(..., sort_keys=True)` (items compared by key). -/
def kvLe (a b : String × JVal) : Prop := strLeKey a.1 b.1 = true

/-- The corresponding strict key order. -/
def kvLt (a b : String × JVal) : Prop := strLtChars a.1.data b.1.data = true

instance : DecidableRel kvLe := fun _ _ => instDecidableEqBool _ _

theorem stringData_inj (s t : String) (h : s.data = t.data) : s = t := by
  cases s with
  | mk d1 =>
    cases t with
    | mk d2 =>
      have h2 : d1 = d2 := h
      rw [h2]

theorem strLtChars_le_trans (as bs cs : List Char) (h1 : strLtChars bs as = false)
    (h2 : strLtChars cs bs = false) : strLtChars cs as = false := by
  rcases h : strLtChars cs as with _ | _
  · rfl
  · rcases strLtChars_trich as bs with h3 | h3 | h3
    · have h4 := strLtChars_trans cs as bs h h3
      rw [h4] at h2
      exact absurd h2 (by simp)
    · rw [h3] at h1
      exact absurd h1 (by simp)
    · rw [h3] at h
      rw [h] at h2
      exact absurd h2 (by simp)

instance : IsTotal (String × JVal) kvLe := by
  constructor
  intro a b
  unfold kvLe strLeKey
  rcases strLtChars_trich a.1.data b.1.data with h | h | h
  · exact Or.inl (by
      rcases h2 : strLtChars b.1.data a.1.data with _ | _
      · simp
      · exact absurd (strLtChars_asymm _ _ h h2) (by simp))
  · exact Or.inr (by
      rcases h2 : strLtChars a.1.data b.1.data with _ | _
      · simp
      · exact absurd (strLtChars_asymm _ _ h2 h) (by simp))
  · exact Or.inl (by
      rcases h2 : strLtChars b.1.data a.1.data with _ | _
      · simp
      · rw [h] at h2
        exact absurd (strLtChars_asymm _ _ h2 h2) (by simp))

instance : IsTrans (String × JVal) kvLe := by
  constructor
  intro a b c hab hbc
  unfold kvLe strLeKey at hab hbc ⊢
  simp only [Bool.not_eq_true'] at hab hbc ⊢
  exact strLtChars_le_trans _ _ _ hab hbc

instance : IsAntisymm (String × JVal) kvLt :=
  ⟨fun a b h1 h2 => absurd (strLtChars_asymm _ _ h1 h2) not_false⟩

/-- Model of sorting the items of a dictionary by key, as performed by
`json.dumps(..., sort_keys=True)` in the `search` route of `src/app.py`. -/
def sortKV (l : List (String × JVal)) : List (String × JVal) :=
  List.insertionSort kvLe l

theorem sortKV_eq_of_perm (l1 l2 : List (String × JVal)) (h : l1.Perm l2)
    (hnd : (l1.map Prod.fst).Nodup) : sortKV l1 = sortKV l2 := by
  have hp1 : (sortKV l1).Perm l1 := List.perm_insertionSort kvLe l1
  have hp2 : (sortKV l2).Perm l2 := List.perm_insertionSort kvLe l2
  have hs1 : List.Sorted kvLe (sortKV l1) := List.sorted_insertionSort kvLe l1
  have hs2 : List.Sorted kvLe (sortKV l2) := List.sorted_insertionSort kvLe l2
  have hnd2 : (l2.map Prod.fst).Nodup := ((h.map Prod.fst).nodup_iff).mp hnd
  have hnds1 : ((sortKV l1).map Prod.fst).Nodup := ((hp1.map Prod.fst).nodup_iff).mpr hnd
  have hnds2 : ((sortKV l2).map Prod.fst).Nodup := ((hp2.map Prod.fst).nodup_iff).mpr hnd2
  have hstrengthen : ∀ m : List (String × JVal), List.Sorted kvLe m →
      (m.map Prod.fst).Nodup → List.Sorted kvLt m := by
    intro m hs hnd3
    have hne : List.Pairwise (fun a b : String × JVal => a.1 ≠ b.1) m :=
      List.pairwise_map.mp hnd3
    refine (hs.and hne).imp ?_
    rintro a b ⟨hle, hne2⟩
    unfold kvLe strLeKey at hle
    unfold kvLt
    rcases strLtChars_trich a.1.data b.1.data with h | h | h
    · exact h
    · exact absurd hle (by simp [h])
    · exact absurd (stringData_inj _ _ h) hne2
  exact List.eq_of_perm_of_sorted (hp1.trans (h.trans hp2.symm))
    (hstrengthen _ hs1 hnds1) (hstrengthen _ hs2 hnds2)

/-- The `MatchRequirements` dataclass of `src/reapi_client.py`. -/
structure MatchRequirements where
  phones : Bool
  emails : Bool
  operator : String
deriving DecidableEq, Repr

/-- The arguments of `SkipTraceClient.skip_trace` in `src/reapi_client.py`.
The fields `prefix_name` and `suffix_name` model the Python parameters
`name_prefix` and `name_suffix` (renamed only to fit Lean lexical
conventions). -/
structure STArgs where
  email : Option String
  phone : Option String
  first_name : Option String
  last_name : Option String
  middle_name : Option String
  prefix_name : Option String
  suffix_name : Option String
  address : Option String
  unit : Option String
  city : Option String
  state : Option String
  zip_code : Option String
  match_requirements : Option MatchRequirements
  live : Bool
deriving DecidableEq, Repr

/-- `"".join(c for c in s if c.isdigit())` as used for phone and zip
cleaning.  Python's `str.isdigit` also accepts some non-ASCII digit
characters; the model covers the ASCII digits, which is what phone and zip
fields contain. -/
def digitsOnly (s : String) : List Char := s.data.filter Char.isDigit

/-- `s.upper()` for the ASCII range (state codes are ASCII). -/
def pyUpper (s : String) : String := String.mk (s.data.map Char.toUpper)

/-- Payload construction and argument validation of
`SkipTraceClient.skip_trace`, including the order in which the `ValueError`
checks fire.  The returned association list is the JSON object posted to
the API; `live` is never consulted (the source removed its use, keeping
only the parameter). -/
def buildPayload (a : STArgs) : Except String (List (String × JVal)) := do
  let p1 : List (String × JVal) :=
    if truthyS a.email then [("email", .str (a.email.getD ""))] else []
  let p2 ←
    if truthyS a.phone then
      let clean_phone := digitsOnly (a.phone.getD "")
      if clean_phone.length = 10 then
        pure (p1 ++ [("phone", JVal.str (String.mk clean_phone))])
      else
        throw "Phone number must be 10 digits"
    else pure p1
  let name_parts : List (String × JVal) :=
    (if truthyS a.first_name then [("first_name", JVal.str (a.first_name.getD ""))] else []) ++
    (if truthyS a.last_name then [("last_name", JVal.str (a.last_name.getD ""))] else []) ++
    (if truthyS a.middle_name then [("middle_name", JVal.str (a.middle_name.getD ""))] else []) ++
    (if truthyS a.prefix_name then [("name_prefix", JVal.str (a.prefix_name.getD ""))] else []) ++
    (if truthyS a.suffix_name then [("name_suffix", JVal.str (a.suffix_name.getD ""))] else [])
  let p3 := p2 ++ name_parts
  let p4 ←
    if truthyS a.address || truthyS a.city || truthyS a.state || truthyS a.zip_code then do
      let q1 := if truthyS a.address then p3 ++ [("address", JVal.str (a.address.getD ""))] else p3
      let q2 := if truthyS a.unit then q1 ++ [("unit", JVal.str (a.unit.getD ""))] else q1
      let q3 := if truthyS a.city then q2 ++ [("city", JVal.str (a.city.getD ""))] else q2
      let q4 ←
        if truthyS a.state then
          if (a.state.getD "").length ≠ 2 then throw "State must be a 2-letter code"
          else pure (q3 ++ [("state", JVal.str (pyUpper (a.state.getD "")))])
        else pure q3
      let q5 ←
        if truthyS a.zip_code then
          let clean_zip := digitsOnly (a.zip_code.getD "")
          if clean_zip.length = 5 ∨ clean_zip.length = 9 then
            pure (q4 ++ [("zip", JVal.str (String.mk clean_zip))])
          else throw "ZIP code must be 5 or 9 digits"
        else pure q4
      pure q5
    else pure p3
  let p5 :=
    match a.match_requirements with
    | some mr => p4 ++ [("match_requirements", JVal.obj
        [("phones", .bool mr.phones), ("emails", .bool mr.emails),
         ("operator", .str mr.operator)])]
    | none => p4
  if truthyS a.email || truthyS a.phone || !name_parts.isEmpty || truthyS a.address ||
      truthyS a.city || truthyS a.state || truthyS a.zip_code then
    pure p5
  else
    throw "At least one identifier (email, phone, name, or address) is required"

/-- Outcome of the single `requests.post` call inside `skip_trace`: either
the transport layer raised (`requests.exceptions.RequestException`, whose
`str` is `msg`), or a response with a status code, reason phrase and body
text arrived. -/
inductive UpstreamOutcome where
  | transportError (msg : String)
  | response (status : Nat) (reason : String) (body : String)
deriving DecidableEq, Repr

/-- Python exceptions that can escape `skip_trace` and be caught by the
`except Exception` handler of the `search` route.  `attributeError` stands
for the `AttributeError` raised in `_raise_for_status` when a parsed error
body is not a dictionary; `jsonDecodeError` for the wrapped
`requests.exceptions.JSONDecodeError` of an unparseable success body;
`dynamicError` for a `TypeError`/`AttributeError` raised while the
`search` route transforms a payload of unexpected shape.  The message
texts of the last three come from library internals and are not
modelled. -/
inductive PyErr where
  | valueError (msg : String)
  | runtimeError (msg : String)
  | attributeError
  | jsonDecodeError (body : String)
  | dynamicError
deriving DecidableEq, Repr

/-- Decimal rendering of a status code. -/
def pyStatusStr (status : Nat) : String := String.mk (natDigits status)

/-- The message of the `HTTPError` that `requests`' own
`Response.raise_for_status` raises for a 4xx/5xx status. -/
def requestsHTTPErrorString (status : Nat) (reason url : String) : String :=
  if status < 500 then
    pyStatusStr status ++ " Client Error: " ++ reason ++ " for url: " ++ url
  else
    pyStatusStr status ++ " Server Error: " ++ reason ++ " for url: " ++ url

/-- Python `repr` of a string. -/
def pyReprStr (s : String) : String :=
  let useDouble := s.data.contains '\x27' && !(s.data.contains '"')
  let q : Char := if useDouble then '"' else '\x27'
  let escOne : Char → List Char := fun c =>
    if c = '\\' then ['\\', '\\']
    else if c = q then ['\\', q]
    else if c = '\n' then ['\\', 'n']
    else if c = '\x0d' then ['\\', 'r']
    else if c = '\t' then ['\\', 't']
    else if c.toNat < 32 ∨ c.toNat = 127 then
      '\\' :: 'x' :: [hexDigitChar (c.toNat / 16 % 16), hexDigitChar (c.toNat % 16)]
    else [c]
  String.mk (q :: (s.data.map escOne).flatten ++ [q])

mutual

/-- Python `repr` of a parsed-JSON value, used when such a value is
interpolated into an f-string via `str` (containers fall back to `repr`).
The string-quoting rule (single quotes unless the text contains a single
quote and no double quote) is modelled; escape sequences inside quoted
text are modelled for the common backslash/quote/newline cases. -/
def pyReprVal : JVal → String
  | .null => "None"
  | .bool true => "True"
  | .bool false => "False"
  | .num i => String.mk (intDigits i)
  | .str s => pyReprStr s
  | .arr [] => "[]"
  | .arr (x :: xs) => "[" ++ pyReprVal x ++ pyReprArr xs ++ "]"
  | .obj [] => String.mk [lbrace, rbrace]
  | .obj (p :: ps) =>
    String.mk [lbrace] ++ pyReprStr p.1 ++ ": " ++ pyReprVal p.2 ++ pyReprObj ps ++
      String.mk [rbrace]

/-- Remaining list elements of a `repr`. -/
def pyReprArr : List JVal → String
  | [] => ""
  | x :: xs => ", " ++ pyReprVal x ++ pyReprArr xs

/-- Remaining dict members of a `repr`. -/
def pyReprObj : List (String × JVal) → String
  | [] => ""
  | p :: ps => ", " ++ pyReprStr p.1 ++ ": " ++ pyReprVal p.2 ++ pyReprObj ps

end

/-- `str(v)` of a parsed-JSON value when interpolated in an f-string. -/
def pyFormatVal : JVal → String
  | .null => "None"
  | .bool true => "True"
  | .bool false => "False"
  | .num i => String.mk (intDigits i)
  | .str s => s
  | v => pyReprVal v

/-- Result of the model of `SkipTraceClient._raise_for_status`. -/
inductive RaiseResult where
  | ok
  | httpError (msg : String)
  | attrError
deriving DecidableEq, Repr

/-- Model of `SkipTraceClient._raise_for_status` in `src/reapi_client.py`:
for a 4xx/5xx response re-raise `HTTPError` with
`"{status} {reason}: {message}"` where `message` comes from the parsed
error body when it is a dictionary with a `message` key, falls back to the
string of the original `HTTPError` for a dictionary without one, and is
omitted entirely when the body fails to parse (the `except ValueError`
branch).  A parsed non-dictionary body makes `error_data.get` raise
`AttributeError`, which nothing in the client catches. -/
def raise_for_status (status : Nat) (reason body url : String) : RaiseResult :=
  if 400 ≤ status ∧ status < 600 then
    match jsonLoads body with
    | some (.obj kvs) =>
      match jLookup "message" kvs with
      | some v => .httpError (pyStatusStr status ++ " " ++ reason ++ ": " ++ pyFormatVal v)
      | none => .httpError (pyStatusStr status ++ " " ++ reason ++ ": " ++
          requestsHTTPErrorString status reason url)
    | some _ => .attrError
    | none => .httpError (pyStatusStr status ++ " " ++ reason)
  else .ok

/-- Model of `SkipTraceClient.skip_trace` in `src/reapi_client.py`.  The
`outcome` argument stands for what the single `requests.post` call would
produce; the returned counter says how many times that call was reached
(0 when validation rejects the arguments first).  `HTTPError` raised by
`_raise_for_status` is a `RequestException`, so the client's own handler
wraps it — like any transport error — into
`RuntimeError("Skip trace request failed: ...")`. -/
def skip_trace (a : STArgs) (url : String) (outcome : UpstreamOutcome) :
    Except PyErr JVal × Nat :=
  match buildPayload a with
  | .error m => (.error (.valueError m), 0)
  | .ok _payload =>
    match outcome with
    | .transportError m => (.error (.runtimeError ("Skip trace request failed: " ++ m)), 1)
    | .response status reason body =>
      match raise_for_status status reason body url with
      | .httpError m => (.error (.runtimeError ("Skip trace request failed: " ++ m)), 1)
      | .attrError => (.error .attributeError, 1)
      | .ok =>
        match jsonLoads body with
        | some j => (.ok j, 1)
        | none => (.error (.jsonDecodeError body), 1)

/-- `v.get(k, default)` on a parsed value: only dictionaries have `.get`;
any other receiver raises `AttributeError`, modelled as `none`. -/
def pyGet (v : JVal) (k : String) (default : JVal) : Option JVal :=
  match v with
  | .obj kvs => some ((jLookup k kvs).getD default)
  | _ => none

/-- Prefix test on character lists. -/
def isPrefixChars : List Char → List Char → Bool
  | [], _ => true
  | _ :: _, [] => false
  | a :: as, b :: bs => a == b && isPrefixChars as bs

/-- Substring test on character lists (Python `needle in haystack` on
strings). -/
def containsSub (needle : List Char) : List Char → Bool
  | [] => needle.isEmpty
  | c :: t => isPrefixChars needle (c :: t) || containsSub needle t

/-- `k in v` for a string `k`: key test on dictionaries, membership test on
lists, substring test on strings; `TypeError` (modelled `none`) on other
values. -/
def pyIn (k : String) (v : JVal) : Option Bool :=
  match v with
  | .obj kvs => some (kvs.any fun p => p.1 == k)
  | .arr xs => some (xs.any fun x => x == JVal.str k)
  | .str s => some (containsSub k.data s.data)
  | _ => none

/-- `v[k]` with a string subscript: dictionary lookup; any other receiver
raises `TypeError`, modelled as `none`.  The callers below only subscript
after an `in` check, so the missing-key case cannot arise there. -/
def pySubscript (v : JVal) (k : String) : Option JVal :=
  match v with
  | .obj kvs => jLookup k kvs
  | _ => none

/-- Python iteration over a parsed value: the elements of a list, the keys
of a dictionary, or the one-character strings of a string; `TypeError`
otherwise. -/
def pyIter (v : JVal) : Option (List JVal) :=
  match v with
  | .arr xs => some xs
  | .obj kvs => some (kvs.map fun p => JVal.str p.1)
  | .str s => some (s.data.map fun c => JVal.str (String.mk [c]))
  | _ => none

/-- Python whitespace for `str.strip` (ASCII range). -/
def pySpace (c : Char) : Bool :=
  c = ' ' || c = '\t' || c = '\n' || c.toNat = 13 || c.toNat = 11 || c.toNat = 12

/-- `s.strip()` over ASCII whitespace. -/
def pyStrip (s : String) : String :=
  String.mk (((s.data.dropWhile pySpace).reverse.dropWhile pySpace).reverse)

/-- One entry of the `names` mapping in the `search` route
(`src/app.py`, the list comprehension over `identity.get('names', [])`). -/
def mapName (name : JVal) : Option JVal := do
  let fn ← pyGet name "firstName" (.str "")
  let ln ← pyGet name "lastName" (.str "")
  let full ← pyGet name "fullName" (.str "")
  let ty ← pyGet name "type" (.str "primary")
  let ls ← pyGet name "lastSeen" (.str "")
  pure (.obj [("first_name", fn), ("last_name", ln), ("full_name", full), ("type", ty),
    ("last_seen", ls)])

/-- The address mapping of the `search` route, including the `street`
field recomposed by an f-string from house/preDir/street/postDir/strType
and stripped of leading and trailing whitespace (`.strip()` does not
collapse interior runs of spaces). -/
def mapAddress (addr : JVal) : Option JVal := do
  let fa ← pyGet addr "formattedAddress" (.str "")
  let h ← pyGet addr "house" (.str "")
  let pre ← pyGet addr "preDir" (.str "")
  let st ← pyGet addr "street" (.str "")
  let post ← pyGet addr "postDir" (.str "")
  let ty ← pyGet addr "strType" (.str "")
  let city ← pyGet addr "city" (.str "")
  let state ← pyGet addr "state" (.str "")
  let zip ← pyGet addr "zip" (.str "")
  let ls ← pyGet addr "lastSeen" (.str "")
  let street := pyStrip (pyFormatVal h ++ " " ++ pyFormatVal pre ++ " " ++ pyFormatVal st ++
    " " ++ pyFormatVal post ++ " " ++ pyFormatVal ty)
  pure (.obj [("formattedAddress", fa), ("street", .str street), ("city", city),
    ("state", state), ("zip", zip), ("last_seen", ls)])

/-- One entry of the `addressHistory` mapping of the `search` route. -/
def mapAddrHist (a : JVal) : Option JVal := do
  let fa ← pyGet a "formattedAddress" (.str "")
  let ls ← pyGet a "lastSeen" (.str "")
  pure (.obj [("formattedAddress", fa), ("last_seen", ls)])

/-- One entry of the `phones` mapping of the `search` route. -/
def mapPhone (p : JVal) : Option JVal := do
  let number ← pyGet p "phone" (.str "")
  let ty ← pyGet p "phoneType" (.str "")
  let conn ← pyGet p "isConnected" (.bool false)
  let ls ← pyGet p "lastSeen" (.str "")
  pure (.obj [("number", number), ("phoneType", ty), ("isConnected", conn),
    ("last_seen", ls)])

/-- One entry of the `emails` mapping of the `search` route. -/
def mapEmail (e : JVal) : Option JVal := do
  let em ← pyGet e "email" (.str "")
  let ty ← pyGet e "emailType" (.str "personal")
  pure (.obj [("email", em), ("emailType", ty)])

/-- The check `'output' in result and 'identity' in result['output']` of
the `search` route, returning the identity section when both hold. -/
def identitySection (result : JVal) : Option (Option JVal) := do
  let hasOut ← pyIn "output" result
  if hasOut then
    let out ← pySubscript result "output"
    let hasId ← pyIn "identity" out
    if hasId then
      let idv ← pySubscript out "identity"
      pure (some idv)
    else pure none
  else pure none

/-- The check `'output' in result and 'demographics' in result['output']`
of the `search` route. -/
def demographicsSection (result : JVal) : Option (Option JVal) := do
  let hasOut ← pyIn "output" result
  if hasOut then
    let out ← pySubscript result "output"
    let hasDemo ← pyIn "demographics" out
    if hasDemo then
      let demo ← pySubscript out "demographics"
      pure (some demo)
    else pure none
  else pure none

/-- The pieces the `search` route computes while building
`transformed_result`, before final assembly.  `none` models a Python
exception escaping into the route's `except Exception` handler. -/
structure TParts where
  match0 : JVal
  requestId : JVal
  requestDate : JVal
  credits : JVal
  names : List JVal
  address : JVal
  addressHistory : List JVal
  phones : List JVal
  emails : List JVal
  demographics : JVal
deriving DecidableEq, Repr

/-- The field-by-field computation of `transformed_result` in the `search`
route of `src/app.py` (lines 220–291), in source order. -/
def transformParts (result : JVal) : Option TParts := do
  let m ← pyGet result "match" (.bool false)
  let rid ← pyGet result "requestId" (.str "")
  let rdt ← pyGet result "requestDate" (.str "")
  let cr ← pyGet result "credits" (.num 0)
  let identSec ← identitySection result
  let idparts ←
    match identSec with
    | none => pure (([] : List JVal), JVal.obj [], ([] : List JVal),
        ([] : List JVal), ([] : List JVal))
    | some identity => do
      let hasNames ← pyIn "names" identity
      let names ←
        if hasNames then do
          let src ← pyGet identity "names" (.arr [])
          let items ← pyIter src
          items.mapM mapName
        else pure []
      let hasAddr ← pyIn "address" identity
      let address ←
        if hasAddr then do
          let addr ← pySubscript identity "address"
          mapAddress addr
        else pure (JVal.obj [])
      let hasAH ← pyIn "addressHistory" identity
      let addrHist ←
        if hasAH then do
          let src ← pyGet identity "addressHistory" (.arr [])
          let items ← pyIter src
          items.mapM mapAddrHist
        else pure []
      let hasPh ← pyIn "phones" identity
      let phones ←
        if hasPh then do
          let src ← pyGet identity "phones" (.arr [])
          let items ← pyIter src
          items.mapM mapPhone
        else pure []
      let hasEm ← pyIn "emails" identity
      let emails ←
        if hasEm then do
          let src ← pyGet identity "emails" (.arr [])
          let items ← pyIter src
          items.mapM mapEmail
        else pure []
      pure (names, address, addrHist, phones, emails)
  let demoSec ← demographicsSection result
  let demographics ←
    match demoSec with
    | none => pure (JVal.obj [])
    | some demo => do
      let age ← pyGet demo "age" (.str "")
      let gender ← pyGet demo "gender" (.str "")
      let dob ← pyGet demo "dob" (.str "")
      pure (JVal.obj [("age", age), ("gender", gender), ("dob", dob)])
  pure ⟨m, rid, rdt, cr, idparts.1, idparts.2.1, idparts.2.2.1, idparts.2.2.2.1,
    idparts.2.2.2.2, demographics⟩

/-- The `data_points` count of the `search` route: Python truthiness of
the already-transformed `phones` list, `emails` list and `address`
mapping. -/
def dataPoints (p : TParts) : Nat :=
  (if jTruthy (.arr p.phones) then 1 else 0) +
  (if jTruthy (.arr p.emails) then 1 else 0) +
  (if jTruthy p.address then 1 else 0)

/-- The `match_confidence` label derived from `data_points`
(`>= 2` high, `== 1` medium, else low). -/
def matchConfidence (p : TParts) : String :=
  if 2 ≤ dataPoints p then "high"
  else if dataPoints p = 1 then "medium"
  else "low"

/-- Assembly of the `transformed_result` dictionary with its keys in
insertion order, `match_confidence` set last. -/
def assemble (p : TParts) : JVal :=
  .obj [("match", p.match0), ("requestId", p.requestId), ("requestDate", p.requestDate),
    ("credits", p.credits),
    ("identity", .obj [("names", .arr p.names), ("address", p.address),
      ("addressHistory", .arr p.addressHistory), ("phones", .arr p.phones),
      ("emails", .arr p.emails)]),
    ("demographics", p.demographics),
    ("match_confidence", .str (matchConfidence p))]

/-- The full response normalization of the `search` route: compute the
pieces, then assemble the dictionary handed to `results.html`. -/
def transform (result : JVal) : Option JVal := (transformParts result).map assemble

/-- The form fields the `search` route reads, after the
`form.get("...") or None` coercion (an empty submission becomes `none`),
plus the two checkbox flags. -/
structure SearchForm where
  first_name : Option String
  last_name : Option String
  email : Option String
  phone : Option String
  address : Option String
  city : Option String
  state : Option String
  zip_code : Option String
  require_phone : Bool
  require_email : Bool
deriving DecidableEq, Repr

/-- A form value as it appears in the cache-key dictionary (`None` becomes
JSON `null`). -/
def optJ : Option String → JVal
  | none => .null
  | some s => .str s

/-- The cache-key dictionary of the `search` route (lines 173–189 of
`src/app.py`), in the literal's insertion order: the eight identity fields
and the two requirement flags, absent fields explicitly `null`. -/
def queryAssoc (f : SearchForm) : List (String × JVal) :=
  [("first_name", optJ f.first_name), ("last_name", optJ f.last_name),
   ("email", optJ f.email), ("phone", optJ f.phone), ("address", optJ f.address),
   ("city", optJ f.city), ("state", optJ f.state), ("zip_code", optJ f.zip_code),
   ("require_phone", .bool f.require_phone), ("require_email", .bool f.require_email)]

/-- `json.dumps(d, sort_keys=True)` for a flat dictionary: sort the items
by key, then serialize. -/
def dumpsSorted (l : List (String × JVal)) : String := jsonDumps (.obj (sortKV l))

/-- The fingerprint of a query:
`hashlib.md5(json.dumps({...}, sort_keys=True).encode("utf-8")).hexdigest()`. -/
def search_key (f : SearchForm) : String := md5hex (dumpsSorted (queryAssoc f))

/-- What the `search` route renders: `results.html` with a result
dictionary, or `index.html` with the error message of the caught
exception. -/
inductive SearchResult where
  | results (r : JVal)
  | errorPage (e : PyErr)
deriving DecidableEq, Repr

/-- The skip-trace endpoint the app-level client posts to (default
`REAPI_BASE_URL` plus the fixed path). -/
def REAPI_URL : String := "https://api.realestateapi.com/v1/SkipTrace"

/-- Truthiness of `cache_get`'s result, as tested by `if not data:` —
note that a cached falsy value (for example `{}`) is treated as a miss. -/
def pyTruthyOpt : Option JVal → Bool
  | none => false
  | some v => jTruthy v

/-- The client arguments the `search` route passes to `skip_trace`
(fields it does not collect stay `None`; `live` is left at its default
`False`). -/
def mkArgs (f : SearchForm) (mr : MatchRequirements) : STArgs :=
  { email := f.email, phone := f.phone, first_name := f.first_name,
    last_name := f.last_name, middle_name := none, prefix_name := none,
    suffix_name := none, address := f.address, unit := none, city := f.city,
    state := f.state, zip_code := f.zip_code, match_requirements := some mr,
    live := false }

/-- The `MatchRequirements` the `search` route constructs: the two
checkbox flags, with operator `"and"` only when both are set. -/
def searchMR (f : SearchForm) : MatchRequirements :=
  ⟨f.require_phone, f.require_email,
    if f.require_phone && f.require_email then "and" else "or"⟩

/-- Model of the `search` route of `src/app.py` (lines 154–321): derive
the fingerprint, consult the cache, and on a miss call `skip_trace`;
a success is cached raw with a one-day TTL and then transformed, a caught
exception renders the error page with the cache untouched.  The returned
counter is the number of times the upstream `requests.post` was reached.
`now` is the integer-second clock shared by the route's cache calls. -/
def search (f : SearchForm) (outcome : UpstreamOutcome) (st : CacheTable) (now : Int) :
    SearchResult × CacheTable × Nat :=
  let key := search_key f
  let data := cache_get key now st
  if pyTruthyOpt data = false then
    match skip_trace (mkArgs f (searchMR f)) REAPI_URL outcome with
    | (.error e, calls) => (.errorPage e, st, calls)
    | (.ok result, calls) =>
      let st2 := cache_set key result 86400 now st
      match transform result with
      | some t => (.results t, st2, calls)
      | none => (.errorPage .dynamicError, st2, calls)
  else
    (.results (data.getD .null), st, 0)

/-- Dictionary field access with `null` fallback, used to state properties
of transformed results. -/
def jGetD (v : JVal) (k : String) : JVal := (pySubscript v k).getD .null

/-- Whether a render result is the error page. -/
def isErrorPage : SearchResult → Bool
  | .errorPage _ => true
  | .results _ => false

/-- Whether the modelled `requests.post` outcome is one the client treats
as a failure: a raised transport exception, or a status in the 4xx/5xx
range (the only statuses `Response.raise_for_status` raises for). -/
def upstreamFailure : UpstreamOutcome → Bool
  | .transportError _ => true
  | .response s _ _ => 400 ≤ s && s < 600

/-- Whether payload construction succeeded. -/
def exceptOk {ε α : Type} : Except ε α → Bool
  | .ok _ => true
  | .error _ => false

/-! ### Claim theorems -/

theorem tableFind_tableReplace (k v : String) (e : Int) (t : CacheTable) :
    tableFind k (tableReplace k v e t) = some (v, e) := by
  induction t with
  | nil => simp [tableReplace, tableFind]
  | cons r rows ih =>
    obtain ⟨k2, v2, e2⟩ := r
    by_cases h : k2 = k
    · simpa [tableReplace, List.filter_cons, h] using ih
    · simpa [tableReplace, List.filter_cons, h, tableFind] using ih

/-- C2 (counterexample): the claim says `set(k, v, ttl=0)` followed
immediately by `get(k)` returns absent; in the code the absence test is
`expires_at < now`, so at `now = expires_at` the value is still
returned. -/
theorem C2_counterexample :
    cache_get "k" 100 (cache_set "k" (JVal.str "v") 0 100 []) =
      some (JVal.str "v") := by decide

/-- C2 (amended): `get` returns the stored value whenever
`now ≤ expires_at = set-time + ttl` (inclusive at the boundary) and
absent exactly when `expires_at < now`; a ttl-`0` entry is still readable
during the second it was written. -/
theorem C2_amended (k : String) (v : JVal) (ttl now now2 : Int)
    (st : CacheTable) :
    (now2 ≤ now + ttl →
      cache_get k now2 (cache_set k v ttl now st) = some v) ∧
    (now + ttl < now2 →
      cache_get k now2 (cache_set k v ttl now st) = none) := by
  constructor
  · intro h
    simp only [cache_get, cache_set, tableFind_tableReplace]
    rw [if_neg (by omega)]
    exact jsonLoads_jsonDumps v
  · intro h
    simp only [cache_get, cache_set, tableFind_tableReplace]
    rw [if_pos (by omega)]

theorem C2_amended_witness :
    cache_get "k" 50 (cache_set "k" (JVal.num 7) 604800 0 []) =
      some (JVal.num 7) ∧
    cache_get "k" 700000 (cache_set "k" (JVal.num 7) 604800 0 []) = none :=
  ⟨(C2_amended "k" (JVal.num 7) 604800 0 50 []).1 (by decide),
   (C2_amended "k" (JVal.num 7) 604800 0 700000 []).2 (by decide)⟩

/-- C8: two `set`s to the same key followed by a `get` within the (positive)
ttl return the second value; the stored row is replaced outright, its
expiry recomputed from the second write. -/
theorem C8_overwrite (k : String) (v1 v2 : JVal) (ttl now : Int)
    (st : CacheTable) (httl : 0 < ttl) :
    cache_get k now (cache_set k v2 ttl now (cache_set k v1 ttl now st)) =
      some v2 ∧
    tableFind k (cache_set k v2 ttl now (cache_set k v1 ttl now st)) =
      some (jsonDumps v2, now + ttl) := by
  refine ⟨?_, ?_⟩
  · simp only [cache_get, cache_set, tableFind_tableReplace]
    rw [if_neg (by omega)]
    exact jsonLoads_jsonDumps v2
  · simp only [cache_set, tableFind_tableReplace]

theorem C8_overwrite_witness :
    cache_get "k" 5
        (cache_set "k" (JVal.bool true) 86400 5
          (cache_set "k" (JVal.num 2) 86400 5 [])) = some (JVal.bool true) ∧
    tableFind "k"
        (cache_set "k" (JVal.bool true) 86400 5
          (cache_set "k" (JVal.num 2) 86400 5 [])) =
      some (jsonDumps (JVal.bool true), 5 + 86400) :=
  C8_overwrite "k" (JVal.num 2) (JVal.bool true) 86400 5 [] (by decide)

/-- C9: a stored row whose text does not parse as JSON reads back as
absent from both caches, never as an error, whatever the clock says. -/
theorem C9_malformed_absent (k s : String) (e now : Int) (st : CacheTable)
    (h1 : tableFind k st = some (s, e)) (h2 : jsonLoads s = none) :
    cache_get k now st = none ∧ detail_cache_get k now st = none := by
  constructor
  · simp only [cache_get, h1]
    split
    · rfl
    · exact h2
  · simp only [detail_cache_get, h1]
    split
    · rfl
    · exact h2

theorem C9_malformed_absent_witness :
    cache_get "k" 0 [("k", "\x7b", 10)] = none ∧
    detail_cache_get "k" 0 [("k", "\x7b", 10)] = none :=
  C9_malformed_absent "k" "\x7b" 10 0 [("k", "\x7b", 10)]
    (by decide) (by decide)

/-- C10: the `live` parameter of `skip_trace` is read nowhere: the built
payload and the whole observable outcome (result and request count) are
identical for `live := true` and `live := false`, for every combination
of the remaining arguments. -/
theorem C10_live_unused (a : STArgs) (url : String)
    (outcome : UpstreamOutcome) :
    skip_trace { a with live := true } url outcome =
      skip_trace { a with live := false } url outcome ∧
    buildPayload { a with live := true } =
      buildPayload { a with live := false } := by
  cases a
  exact ⟨rfl, rfl⟩

/-- C7: the fingerprint ignores insertion order: hashing the sorted dump
of any permutation of the query dictionary's items gives `search_key f`,
because `sort_keys=True` canonicalizes the order before `md5`. -/
theorem C7_fingerprint_order (f : SearchForm) (l : List (String × JVal))
    (hperm : l.Perm (queryAssoc f)) :
    md5hex (dumpsSorted l) = search_key f := by
  have hnd : ((queryAssoc f).map Prod.fst).Nodup := by
    show (["first_name", "last_name", "email", "phone", "address", "city",
      "state", "zip_code", "require_phone", "require_email"] :
        List String).Nodup
    decide
  have hnd2 : (l.map Prod.fst).Nodup := ((hperm.map Prod.fst).nodup_iff).mpr hnd
  unfold search_key dumpsSorted
  rw [sortKV_eq_of_perm l (queryAssoc f) hperm hnd2]

theorem C7_fingerprint_order_witness :
    md5hex (dumpsSorted (List.reverse (queryAssoc
        ⟨some "Ann", none, none, none, none, none, none, none,
          false, false⟩))) =
      search_key
        ⟨some "Ann", none, none, none, none, none, none, none,
          false, false⟩ :=
  C7_fingerprint_order
    ⟨some "Ann", none, none, none, none, none, none, none, false, false⟩
    (List.reverse (queryAssoc
      ⟨some "Ann", none, none, none, none, none, none, none, false, false⟩))
    (by decide)

/-- The query of the C1 run: first name `"Ann"`, everything else blank. -/
def C1form : SearchForm :=
  ⟨some "Ann", none, none, none, none, none, none, none, false, false⟩

/-- The upstream outcome of the C1 run: `200 OK` with body
`\x7b"match": true\x7d`. -/
def C1outcome : UpstreamOutcome :=
  .response 200 "OK" "\x7b\"match\": true\x7d"

/-- What the C1 miss renders: the normalized and scored record. -/
def C1transformed : JVal :=
  .obj [("match", .bool true), ("requestId", .str ""),
    ("requestDate", .str ""), ("credits", .num 0),
    ("identity", .obj [("names", .arr []), ("address", .obj []),
      ("addressHistory", .arr []), ("phones", .arr []),
      ("emails", .arr [])]),
    ("demographics", .obj []), ("match_confidence", .str "low")]

/-- The cache after the C1 miss: the raw upstream body under the
fingerprint, one-day TTL. -/
def C1table : CacheTable :=
  [("b4e93e04ceddea74806bb0199c852248", "\x7b\"match\": true\x7d", 86400)]

set_option maxRecDepth 1000000 in
/-- C1 (code bug): the value cached on a miss is the raw upstream payload,
not the normalized+scored record: the miss renders the transformed record,
but repeating the identical query against the resulting cache renders the
raw `\x7b"match": true\x7d` dictionary — the hit does not equal the miss,
and the stored text is the raw body. -/
theorem C1_cache_stores_raw :
    search C1form C1outcome [] 0 = (.results C1transformed, C1table, 1) ∧
    search C1form C1outcome C1table 0 =
      (.results (JVal.obj [("match", JVal.bool true)]), C1table, 0) ∧
    JVal.obj [("match", JVal.bool true)] ≠ C1transformed ∧
    tableFind (search_key C1form) C1table =
      some ("\x7b\"match\": true\x7d", 86400) := by decide

theorem except_bind_error {ε α β : Type} (e : ε) (k : α → Except ε β) :
    (Except.error e >>= k) = Except.error e := rfl

theorem except_bind_ok {ε α β : Type} (x : α) (k : α → Except ε β) :
    (Except.ok x >>= k) = k x := rfl

theorem except_throw_eq {ε α : Type} (e : ε) :
    (throw e : Except ε α) = Except.error e := rfl

theorem except_pure_eq {ε α : Type} (x : α) :
    (pure x : Except ε α) = Except.ok x := rfl

theorem buildPayload_phone_error (a : STArgs)
    (hph : truthyS a.phone = true)
    (hlen : (digitsOnly (a.phone.getD "")).length ≠ 10) :
    buildPayload a = .error "Phone number must be 10 digits" := by
  simp [buildPayload, hph, hlen, except_bind_error, except_bind_ok,
    except_throw_eq, except_pure_eq]

theorem buildPayload_state_error (a : STArgs)
    (hph : truthyS a.phone = false ∨ (digitsOnly (a.phone.getD "")).length = 10)
    (hst : truthyS a.state = true)
    (hslen : (a.state.getD "").length ≠ 2) :
    buildPayload a = .error "State must be a 2-letter code" := by
  rcases hph with hph | hph <;>
    simp [buildPayload, hph, hst, hslen, except_bind_error, except_bind_ok,
      except_throw_eq, except_pure_eq]

theorem buildPayload_zip_error (a : STArgs)
    (hph : truthyS a.phone = false ∨ (digitsOnly (a.phone.getD "")).length = 10)
    (hst : truthyS a.state = false ∨ (a.state.getD "").length = 2)
    (hz : truthyS a.zip_code = true)
    (hzlen : (digitsOnly (a.zip_code.getD "")).length ≠ 5 ∧
      (digitsOnly (a.zip_code.getD "")).length ≠ 9) :
    buildPayload a = .error "ZIP code must be 5 or 9 digits" := by
  obtain ⟨hz5, hz9⟩ := hzlen
  rcases hph with hph | hph <;> rcases hst with hst | hst <;>
    [skip; skip; by_cases hstt : truthyS a.state; by_cases hstt : truthyS a.state] <;>
    simp [buildPayload, hph, hst, hz, hz5, hz9, except_bind_error, except_bind_ok,
      except_throw_eq, except_pure_eq, *]

theorem buildPayload_identifier_error (a : STArgs)
    (he : truthyS a.email = false) (hp : truthyS a.phone = false)
    (hf : truthyS a.first_name = false) (hl : truthyS a.last_name = false)
    (hm : truthyS a.middle_name = false) (hpre : truthyS a.prefix_name = false)
    (hsuf : truthyS a.suffix_name = false) (ha : truthyS a.address = false)
    (hc : truthyS a.city = false) (hs : truthyS a.state = false)
    (hz : truthyS a.zip_code = false) :
    buildPayload a =
      .error "At least one identifier (email, phone, name, or address) is required" := by
  simp [buildPayload, he, hp, hf, hl, hm, hpre, hsuf, ha, hc, hs, hz,
    except_bind_error, except_bind_ok, except_throw_eq, except_pure_eq]

set_option maxHeartbeats 8000000 in
theorem buildPayload_ok (a : STArgs)
    (hph : truthyS a.phone = true → (digitsOnly (a.phone.getD "")).length = 10)
    (hst : truthyS a.state = true → (a.state.getD "").length = 2)
    (hzp : truthyS a.zip_code = true →
      (digitsOnly (a.zip_code.getD "")).length = 5 ∨
        (digitsOnly (a.zip_code.getD "")).length = 9)
    (hid : truthyS a.email = true ∨ truthyS a.phone = true ∨
      truthyS a.first_name = true ∨ truthyS a.last_name = true ∨
      truthyS a.middle_name = true ∨ truthyS a.prefix_name = true ∨
      truthyS a.suffix_name = true ∨ truthyS a.address = true ∨
      truthyS a.city = true ∨ truthyS a.state = true ∨
      truthyS a.zip_code = true) :
    exceptOk (buildPayload a) = true := by
  by_cases h1 : truthyS a.phone <;> by_cases h4 : truthyS a.state <;>
    by_cases h5 : truthyS a.zip_code <;> by_cases h2 : truthyS a.address <;>
    by_cases h3 : truthyS a.city <;>
    simp only [h1, h4, h5, forall_const, Bool.true_eq_false, Bool.false_eq_true,
      false_implies, IsEmpty.forall_iff] at hph hst hzp <;>
    simp [buildPayload, exceptOk, h1, h2, h3, h4, h5, hph, hst, hzp,
      except_bind_error, except_bind_ok, except_throw_eq, except_pure_eq] <;>
    rcases hid with h | h | h | h | h | h | h | h | h | h | h <;>
    simp_all

theorem search_validation_error (f : SearchForm) (outcome : UpstreamOutcome)
    (st : CacheTable) (now : Int) (m : String)
    (hmiss : pyTruthyOpt (cache_get (search_key f) now st) = false)
    (hbad : buildPayload (mkArgs f (searchMR f)) = .error m) :
    search f outcome st now = (.errorPage (.valueError m), st, 0) := by
  simp only [search, skip_trace, hmiss, hbad, if_pos]

theorem search_cache_hit (f : SearchForm) (outcome : UpstreamOutcome)
    (st : CacheTable) (now : Int)
    (hhit : pyTruthyOpt (cache_get (search_key f) now st) = true) :
    search f outcome st now =
      (.results ((cache_get (search_key f) now st).getD .null), st, 0) := by
  simp only [search, hhit]
  rw [if_neg (by simp)]

/-- The query of `search` violates the client's phone rule: a truthy phone
that does not strip to exactly 10 digits. -/
def phoneViolation (f : SearchForm) : Bool :=
  truthyS f.phone && !((digitsOnly (f.phone.getD "")).length == 10)

/-- The query violates the client's state rule: a truthy state whose
length is not 2 (the check is on length only, not on letters). -/
def stateViolation (f : SearchForm) : Bool :=
  truthyS f.state && !((f.state.getD "").length == 2)

/-- The query violates the client's zip rule: a truthy zip that does not
strip to 5 or 9 digits. -/
def zipViolation (f : SearchForm) : Bool :=
  truthyS f.zip_code && !((digitsOnly (f.zip_code.getD "")).length == 5 ||
    (digitsOnly (f.zip_code.getD "")).length == 9)

/-- The query carries no identifying fact the client accepts. -/
def noIdentifier (f : SearchForm) : Bool :=
  !(truthyS f.email || truthyS f.phone || truthyS f.first_name ||
    truthyS f.last_name || truthyS f.address || truthyS f.city ||
    truthyS f.state || truthyS f.zip_code)

/-- A query with an invalid phone (`"123"`). -/
def C3cexPhone : SearchForm :=
  ⟨none, none, none, some "123", none, none, none, none, false, false⟩

/-- A query whose state is two digits, not two letters. -/
def C3cexState : SearchForm :=
  ⟨none, none, none, none, none, none, some "12", none, false, false⟩

set_option maxRecDepth 1000000 in
/-- C3 (counterexample): the claim puts validation before the cache lookup
and requires the state to be two letters.  In the code the cache is
consulted first — a query with phone `"123"` whose fingerprint has a
truthy cached entry is answered from the cache, never rejected — and the
state `"12"` passes validation (only the length is checked) and reaches
the upstream call. -/
theorem C3_counterexample :
    search C3cexPhone (.transportError "x")
        [(search_key C3cexPhone, "\x7b\"match\": true\x7d", 100)] 0 =
      (.results (JVal.obj [("match", JVal.bool true)]),
        [(search_key C3cexPhone, "\x7b\"match\": true\x7d", 100)], 0) ∧
    (search C3cexState (.response 200 "OK" "\x7b\"match\": true\x7d") [] 0).2.2
        = 1 ∧
    isErrorPage
        (search C3cexState (.response 200 "OK" "\x7b\"match\": true\x7d")
          [] 0).1 = false := by decide

/-- C3 (amended): validation happens inside the upstream client, after
the route's cache lookup.  On a cache miss a query with an invalid phone,
state or zip, or no identifying fact, is rejected with the client's
`ValueError` before the upstream request (zero calls, cache untouched) —
the state rule accepts any 2-character value, letters or not — while a
truthy cache hit is answered without any validation; the four violation
classes characterize exactly the queries the client rejects. -/
theorem C3_amended (f : SearchForm) (outcome : UpstreamOutcome)
    (st : CacheTable) (now : Int) :
    (∀ m, pyTruthyOpt (cache_get (search_key f) now st) = false →
      buildPayload (mkArgs f (searchMR f)) = .error m →
      search f outcome st now = (.errorPage (.valueError m), st, 0)) ∧
    (pyTruthyOpt (cache_get (search_key f) now st) = true →
      search f outcome st now =
        (.results ((cache_get (search_key f) now st).getD .null), st, 0)) ∧
    (phoneViolation f = true →
      buildPayload (mkArgs f (searchMR f)) =
        .error "Phone number must be 10 digits") ∧
    (phoneViolation f = false → stateViolation f = true →
      buildPayload (mkArgs f (searchMR f)) =
        .error "State must be a 2-letter code") ∧
    (phoneViolation f = false → stateViolation f = false →
      zipViolation f = true →
      buildPayload (mkArgs f (searchMR f)) =
        .error "ZIP code must be 5 or 9 digits") ∧
    (noIdentifier f = true →
      buildPayload (mkArgs f (searchMR f)) =
        .error
          "At least one identifier (email, phone, name, or address) is required") ∧
    (phoneViolation f = false → stateViolation f = false →
      zipViolation f = false → noIdentifier f = false →
      exceptOk (buildPayload (mkArgs f (searchMR f))) = true) := by
  have hargs : mkArgs f (searchMR f) =
      { email := f.email, phone := f.phone, first_name := f.first_name,
        last_name := f.last_name, middle_name := none, prefix_name := none,
        suffix_name := none, address := f.address, unit := none,
        city := f.city, state := f.state, zip_code := f.zip_code,
        match_requirements := some (searchMR f), live := false } := rfl
  have hphOf : phoneViolation f = false →
      truthyS f.phone = true → (digitsOnly (f.phone.getD "")).length = 10 := by
    intro hv h1
    simp only [phoneViolation, h1, Bool.true_and, Bool.not_eq_false',
      beq_iff_eq] at hv
    exact hv
  have hstOf : stateViolation f = false →
      truthyS f.state = true → (f.state.getD "").length = 2 := by
    intro hv h1
    simp only [stateViolation, h1, Bool.true_and, Bool.not_eq_false',
      beq_iff_eq] at hv
    exact hv
  have hzpOf : zipViolation f = false →
      truthyS f.zip_code = true →
      (digitsOnly (f.zip_code.getD "")).length = 5 ∨
        (digitsOnly (f.zip_code.getD "")).length = 9 := by
    intro hv h1
    simp only [zipViolation, h1, Bool.true_and, Bool.not_eq_false',
      Bool.or_eq_true, beq_iff_eq] at hv
    exact hv
  refine ⟨?_, ?_, ?_, ?_, ?_, ?_, ?_⟩
  · intro m hmiss hbad
    exact search_validation_error f outcome st now m hmiss hbad
  · intro hhit
    exact search_cache_hit f outcome st now hhit
  · intro hv
    simp only [phoneViolation, Bool.and_eq_true, Bool.not_eq_true',
      beq_eq_false_iff_ne] at hv
    exact buildPayload_phone_error (mkArgs f (searchMR f)) hv.1 hv.2
  · intro hpf hv
    simp only [stateViolation, Bool.and_eq_true, Bool.not_eq_true',
      beq_eq_false_iff_ne] at hv
    refine buildPayload_state_error (mkArgs f (searchMR f)) ?_ hv.1 hv.2
    cases hb : truthyS f.phone
    · exact .inl hb
    · exact .inr (hphOf hpf hb)
  · intro hpf hsf hv
    simp only [zipViolation, Bool.and_eq_true, Bool.not_eq_true',
      Bool.or_eq_false_iff, beq_eq_false_iff_ne] at hv
    refine buildPayload_zip_error (mkArgs f (searchMR f)) ?_ ?_ hv.1
      ⟨hv.2.1, hv.2.2⟩
    · cases hb : truthyS f.phone
      · exact .inl hb
      · exact .inr (hphOf hpf hb)
    · cases hb : truthyS f.state
      · exact .inl hb
      · exact .inr (hstOf hsf hb)
  · intro hv
    simp only [noIdentifier, Bool.not_eq_true', Bool.or_eq_false_iff] at hv
    obtain ⟨⟨⟨⟨⟨⟨⟨he, hp⟩, hf⟩, hl⟩, ha⟩, hc⟩, hs⟩, hz⟩ := hv
    exact buildPayload_identifier_error (mkArgs f (searchMR f))
      he hp hf hl rfl rfl rfl ha hc hs hz
  · intro hpf hsf hzf hif
    refine buildPayload_ok (mkArgs f (searchMR f)) (hphOf hpf) (hstOf hsf)
      (hzpOf hzf) ?_
    simp only [noIdentifier, Bool.not_eq_false', Bool.or_eq_true] at hif
    rcases hif with (((((((h | h) | h) | h) | h) | h) | h) | h)
    · exact .inl h
    · exact .inr (.inl h)
    · exact .inr (.inr (.inl h))
    · exact .inr (.inr (.inr (.inl h)))
    · exact .inr (.inr (.inr (.inr (.inr (.inr (.inr (.inl h)))))))
    · exact .inr (.inr (.inr (.inr (.inr (.inr (.inr (.inr (.inl h))))))))
    · exact .inr (.inr (.inr (.inr (.inr (.inr (.inr (.inr (.inr (.inl h)))))))))
    · exact .inr (.inr (.inr (.inr (.inr (.inr (.inr (.inr (.inr (.inr h)))))))))

theorem C3_amended_witness :
    search C3cexPhone (.transportError "x") [] 0 =
      (.errorPage (.valueError "Phone number must be 10 digits"), [], 0) ∧
    buildPayload (mkArgs C3cexPhone (searchMR C3cexPhone)) =
      .error "Phone number must be 10 digits" :=
  ⟨(C3_amended C3cexPhone (.transportError "x") [] 0).1
      "Phone number must be 10 digits" (by decide) (by rfl),
   (C3_amended C3cexPhone (.transportError "x") [] 0).2.2.1 (by decide)⟩

/-- A valid query (first name `"Bob"`) used in the C6 run. -/
def C6form : SearchForm :=
  ⟨some "Bob", none, none, none, none, none, none, none, false, false⟩

set_option maxRecDepth 1000000 in
/-- C6 (counterexample): the claim treats every non-2xx response as a
failure, but `raise_for_status` raises only for 4xx/5xx.  A terminal
`300 Multiple Choices` response with a JSON body is treated as success:
the result page is rendered (no error surfaced) and the body is written
to the cache under the query's fingerprint. -/
theorem C6_counterexample :
    isErrorPage
        (search C6form
          (.response 300 "Multiple Choices" "\x7b\"match\": true\x7d")
          [] 0).1 = false ∧
    (search C6form (.response 300 "Multiple Choices" "\x7b\"match\": true\x7d")
        [] 0).2.1 =
      [(search_key C6form, "\x7b\"match\": true\x7d", 86400)] := by decide

/-- C6 (amended): when the upstream call fails in the sense of the code —
a transport error or a 4xx/5xx status — a cache-miss lookup with a valid
query leaves the cache untouched, reaches `requests.post` exactly once
(no retry), and renders the error page; a transport error surfaces as
`RuntimeError("Skip trace request failed: <msg>")`, and an HTTP error
whose body is a JSON object with a `"message"` key surfaces that message
as `"Skip trace request failed: <status> <reason>: <message>"`. -/
theorem C6_amended (f : SearchForm) (outcome : UpstreamOutcome)
    (st : CacheTable) (now : Int)
    (hmiss : pyTruthyOpt (cache_get (search_key f) now st) = false)
    (hok : exceptOk (buildPayload (mkArgs f (searchMR f))) = true)
    (hfail : upstreamFailure outcome = true) :
    ((search f outcome st now).2.1 = st ∧
      (search f outcome st now).2.2 = 1 ∧
      isErrorPage (search f outcome st now).1 = true) ∧
    (∀ m, outcome = .transportError m →
      (search f outcome st now).1 =
        .errorPage (.runtimeError ("Skip trace request failed: " ++ m))) ∧
    (∀ s r b kvs m, outcome = .response s r b →
      jsonLoads b = some (.obj kvs) → jLookup "message" kvs = some m →
      (search f outcome st now).1 =
        .errorPage (.runtimeError ("Skip trace request failed: " ++
          (pyStatusStr s ++ " " ++ r ++ ": " ++ pyFormatVal m)))) := by
  obtain ⟨p, hp⟩ : ∃ p, buildPayload (mkArgs f (searchMR f)) = .ok p := by
    cases hb : buildPayload (mkArgs f (searchMR f)) with
    | error e => rw [hb] at hok; exact absurd hok (by simp [exceptOk])
    | ok p => exact ⟨p, rfl⟩
  have hskip : ∀ e n, skip_trace (mkArgs f (searchMR f)) REAPI_URL outcome =
      (.error e, n) → search f outcome st now = (.errorPage e, st, n) := by
    intro e n h
    simp only [search, hmiss, h, if_pos]
  cases outcome with
  | transportError m =>
    have hs2 := hskip (.runtimeError ("Skip trace request failed: " ++ m)) 1
      (by simp only [skip_trace, hp])
    refine ⟨⟨by rw [hs2], by rw [hs2], by rw [hs2]; rfl⟩, ?_, ?_⟩
    · intro m2 heq
      cases heq
      rw [hs2]
    · intro s2 r2 b2 kvs2 m2 heq
      exact absurd heq (by simp)
  | response s r b =>
    simp only [upstreamFailure, Bool.and_eq_true, decide_eq_true_eq] at hfail
    cases hb : jsonLoads b with
    | none =>
      have hs2 := hskip (.runtimeError ("Skip trace request failed: " ++
          (pyStatusStr s ++ " " ++ r))) 1 (by
        simp only [skip_trace, hp, raise_for_status, if_pos hfail, hb])
      refine ⟨⟨by rw [hs2], by rw [hs2], by rw [hs2]; rfl⟩, ?_, ?_⟩
      · intro m2 heq
        exact absurd heq (by simp)
      · intro s2 r2 b2 kvs2 m2 heq hload hmsg
        cases heq
        rw [hb] at hload
        exact absurd hload (by simp)
    | some v =>
      cases v with
      | obj kvs =>
        cases hm : jLookup "message" kvs with
        | some mv =>
          have hs2 := hskip (.runtimeError ("Skip trace request failed: " ++
              (pyStatusStr s ++ " " ++ r ++ ": " ++ pyFormatVal mv))) 1 (by
            simp only [skip_trace, hp, raise_for_status, if_pos hfail, hb, hm])
          refine ⟨⟨by rw [hs2], by rw [hs2], by rw [hs2]; rfl⟩, ?_, ?_⟩
          · intro m2 heq
            exact absurd heq (by simp)
          · intro s2 r2 b2 kvs2 m2 heq hload hmsg
            cases heq
            rw [hb] at hload
            injection hload with h1
            injection h1 with h2
            subst h2
            rw [hm] at hmsg
            injection hmsg with h3
            subst h3
            rw [hs2]
        | none =>
          have hs2 := hskip (.runtimeError ("Skip trace request failed: " ++
              (pyStatusStr s ++ " " ++ r ++ ": " ++
                requestsHTTPErrorString s r REAPI_URL))) 1 (by
            simp only [skip_trace, hp, raise_for_status, if_pos hfail, hb, hm])
          refine ⟨⟨by rw [hs2], by rw [hs2], by rw [hs2]; rfl⟩, ?_, ?_⟩
          · intro m2 heq
            exact absurd heq (by simp)
          · intro s2 r2 b2 kvs2 m2 heq hload hmsg
            cases heq
            rw [hb] at hload
            injection hload with h1
            injection h1 with h2
            subst h2
            rw [hm] at hmsg
            exact absurd hmsg (by simp)
      | null =>
        have hs2 := hskip .attributeError 1 (by
          simp only [skip_trace, hp, raise_for_status, if_pos hfail, hb])
        refine ⟨⟨by rw [hs2], by rw [hs2], by rw [hs2]; rfl⟩, ?_, ?_⟩
        · intro m2 heq
          exact absurd heq (by simp)
        · intro s2 r2 b2 kvs2 m2 heq hload hmsg
          cases heq
          rw [hb] at hload
          exact absurd hload (by simp)
      | bool x =>
        have hs2 := hskip .attributeError 1 (by
          simp only [skip_trace, hp, raise_for_status, if_pos hfail, hb])
        refine ⟨⟨by rw [hs2], by rw [hs2], by rw [hs2]; rfl⟩, ?_, ?_⟩
        · intro m2 heq
          exact absurd heq (by simp)
        · intro s2 r2 b2 kvs2 m2 heq hload hmsg
          cases heq
          rw [hb] at hload
          exact absurd hload (by simp)
      | num x =>
        have hs2 := hskip .attributeError 1 (by
          simp only [skip_trace, hp, raise_for_status, if_pos hfail, hb])
        refine ⟨⟨by rw [hs2], by rw [hs2], by rw [hs2]; rfl⟩, ?_, ?_⟩
        · intro m2 heq
          exact absurd heq (by simp)
        · intro s2 r2 b2 kvs2 m2 heq hload hmsg
          cases heq
          rw [hb] at hload
          exact absurd hload (by simp)
      | str x =>
        have hs2 := hskip .attributeError 1 (by
          simp only [skip_trace, hp, raise_for_status, if_pos hfail, hb])
        refine ⟨⟨by rw [hs2], by rw [hs2], by rw [hs2]; rfl⟩, ?_, ?_⟩
        · intro m2 heq
          exact absurd heq (by simp)
        · intro s2 r2 b2 kvs2 m2 heq hload hmsg
          cases heq
          rw [hb] at hload
          exact absurd hload (by simp)
      | arr xs =>
        have hs2 := hskip .attributeError 1 (by
          simp only [skip_trace, hp, raise_for_status, if_pos hfail, hb])
        refine ⟨⟨by rw [hs2], by rw [hs2], by rw [hs2]; rfl⟩, ?_, ?_⟩
        · intro m2 heq
          exact absurd heq (by simp)
        · intro s2 r2 b2 kvs2 m2 heq hload hmsg
          cases heq
          rw [hb] at hload
          exact absurd hload (by simp)

theorem C6_amended_witness :
    ((search C6form (.transportError "boom") [] 0).2.1 = [] ∧
      (search C6form (.transportError "boom") [] 0).2.2 = 1 ∧
      isErrorPage (search C6form (.transportError "boom") [] 0).1 = true) ∧
    (∀ m, UpstreamOutcome.transportError "boom" = .transportError m →
      (search C6form (.transportError "boom") [] 0).1 =
        .errorPage (.runtimeError ("Skip trace request failed: " ++ m))) ∧
    (∀ s r b kvs m,
      UpstreamOutcome.transportError "boom" = .response s r b →
      jsonLoads b = some (.obj kvs) → jLookup "message" kvs = some m →
      (search C6form (.transportError "boom") [] 0).1 =
        .errorPage (.runtimeError ("Skip trace request failed: " ++
          (pyStatusStr s ++ " " ++ r ++ ": " ++ pyFormatVal m)))) :=
  C6_amended C6form (.transportError "boom") [] 0 (by decide) (by rfl)
    (by decide)

theorem opt_bind_some {α β : Type} {o : Option α} {k : α → Option β} {b : β}
    (h : (o >>= k) = some b) : ∃ a, o = some a ∧ k a = some b := by
  cases o with
  | none => cases h
  | some a => exact ⟨a, rfl, h⟩

theorem mapAddress_shape (a v : JVal) (h : mapAddress a = some v) :
    jKeys v = ["formattedAddress", "street", "city", "state", "zip",
      "last_seen"] ∧ jTruthy v = true := by
  unfold mapAddress at h
  obtain ⟨fa, _, h⟩ := opt_bind_some h
  obtain ⟨hh, _, h⟩ := opt_bind_some h
  obtain ⟨pre, _, h⟩ := opt_bind_some h
  obtain ⟨st, _, h⟩ := opt_bind_some h
  obtain ⟨post, _, h⟩ := opt_bind_some h
  obtain ⟨ty, _, h⟩ := opt_bind_some h
  obtain ⟨city, _, h⟩ := opt_bind_some h
  obtain ⟨state, _, h⟩ := opt_bind_some h
  obtain ⟨zip, _, h⟩ := opt_bind_some h
  obtain ⟨ls, _, h⟩ := opt_bind_some h
  have hv := Option.some.inj h
  rw [← hv]
  exact ⟨rfl, rfl⟩

set_option maxHeartbeats 2000000 in
theorem transformParts_shapes (r : JVal) (p : TParts)
    (h : transformParts r = some p) :
    (p.address = .obj [] ∨
      (jKeys p.address = ["formattedAddress", "street", "city", "state",
        "zip", "last_seen"] ∧ jTruthy p.address = true)) ∧
    (p.demographics = .obj [] ∨
      jKeys p.demographics = ["age", "gender", "dob"]) := by
  unfold transformParts at h
  obtain ⟨m, hm, h⟩ := opt_bind_some h
  obtain ⟨rid, hrid, h⟩ := opt_bind_some h
  obtain ⟨rdt, hrdt, h⟩ := opt_bind_some h
  obtain ⟨cr, hcr, h⟩ := opt_bind_some h
  obtain ⟨identSec, hsec, h⟩ := opt_bind_some h
  repeat' (first
    | (obtain ⟨_, hstep, h⟩ := opt_bind_some h
       try (cases hstep))
    | (split at h))
  all_goals
    have hp := Option.some.inj h
  all_goals subst hp
  all_goals refine ⟨?_, ?_⟩
  all_goals
    first
      | exact .inl rfl
      | exact .inr rfl
      | exact .inr (mapAddress_shape _ _ (by assumption))

/-- The record `transform` produces from the empty raw payload. -/
def C4empty : JVal :=
  .obj [("match", .bool false), ("requestId", .str ""),
    ("requestDate", .str ""), ("credits", .num 0),
    ("identity", .obj [("names", .arr []), ("address", .obj []),
      ("addressHistory", .arr []), ("phones", .arr []),
      ("emails", .arr [])]),
    ("demographics", .obj []), ("match_confidence", .str "low")]

/-- C4 (counterexample): normalizing the empty payload does give empty
lists, empty strings, `match=false`, `credits=0` and `"low"` — but the
schema is not fully populated: `identity.address` and `demographics` come
out as empty dictionaries, so `formattedAddress` (among others) is a
missing key, which the claim says never happens. -/
theorem C4_counterexample :
    transform (JVal.obj []) = some C4empty ∧
    jKeys (jGetD (jGetD C4empty "identity") "address") = [] ∧
    pyIn "formattedAddress" (jGetD (jGetD C4empty "identity") "address") =
      some false ∧
    jKeys (jGetD C4empty "demographics") = [] := by decide

/-- C4 (amended): every successfully normalized record has the seven
top-level keys and the five `identity` keys, with absent scalar sources
defaulted to `""`, `false` and `0`; but the `address` and `demographics`
sub-dictionaries are either fully keyed or empty `\x7b\x7d`, the latter
whenever the corresponding raw section is absent — their keys can be
missing.  The empty payload normalizes to `C4empty`. -/
theorem C4_amended (r t : JVal) (h : transform r = some t) :
    jKeys t = ["match", "requestId", "requestDate", "credits", "identity",
      "demographics", "match_confidence"] ∧
    jKeys (jGetD t "identity") =
      ["names", "address", "addressHistory", "phones", "emails"] ∧
    (jKeys (jGetD (jGetD t "identity") "address") = [] ∨
      jKeys (jGetD (jGetD t "identity") "address") =
        ["formattedAddress", "street", "city", "state", "zip",
          "last_seen"]) ∧
    (jKeys (jGetD t "demographics") = [] ∨
      jKeys (jGetD t "demographics") = ["age", "gender", "dob"]) := by
  obtain ⟨p, hp, ht⟩ := Option.map_eq_some'.mp h
  subst ht
  obtain ⟨haddr, hdemo⟩ := transformParts_shapes r p hp
  refine ⟨rfl, rfl, ?_, ?_⟩
  · show jKeys p.address = [] ∨ jKeys p.address = _
    rcases haddr with h1 | h1
    · left
      rw [h1]
      rfl
    · right
      exact h1.1
  · show jKeys p.demographics = [] ∨ jKeys p.demographics = _
    rcases hdemo with h1 | h1
    · left
      rw [h1]
      rfl
    · right
      exact h1

theorem C4_amended_witness :
    jKeys C4empty = ["match", "requestId", "requestDate", "credits",
      "identity", "demographics", "match_confidence"] ∧
    jKeys (jGetD C4empty "identity") =
      ["names", "address", "addressHistory", "phones", "emails"] ∧
    (jKeys (jGetD (jGetD C4empty "identity") "address") = [] ∨
      jKeys (jGetD (jGetD C4empty "identity") "address") =
        ["formattedAddress", "street", "city", "state", "zip",
          "last_seen"]) ∧
    (jKeys (jGetD C4empty "demographics") = [] ∨
      jKeys (jGetD C4empty "demographics") = ["age", "gender", "dob"]) :=
  C4_amended (JVal.obj []) C4empty (by decide)

/-- Modelled from the spec: a field of the normalized address is empty
when it is the empty string (a missing key also counts as empty). -/
def specFieldEmpty (addr : JVal) (k : String) : Bool :=
  (pySubscript addr k).getD (JVal.str "") == JVal.str ""

/-- Modelled from the spec: the address facet of the confidence score
holds when `formattedAddress`, `city`, `state` and `zip` of the
normalized address are not all empty. -/
def specAddressPresent (t : JVal) : Bool :=
  let addr := jGetD (jGetD t "identity") "address"
  !(specFieldEmpty addr "formattedAddress" && specFieldEmpty addr "city" &&
    specFieldEmpty addr "state" && specFieldEmpty addr "zip")

/-- Modelled from the spec: the number of facets the scorer is said to
count on a normalized record — phones non-empty, emails non-empty,
address present. -/
def specFacetCount (t : JVal) : Nat :=
  (if jTruthy (jGetD (jGetD t "identity") "phones") then 1 else 0) +
  (if jTruthy (jGetD (jGetD t "identity") "emails") then 1 else 0) +
  (if specAddressPresent t then 1 else 0)

/-- A raw payload whose identity section holds an empty address
dictionary. -/
def C5raw : JVal :=
  .obj [("output", .obj [("identity", .obj [("address", .obj [])])])]

/-- What `transform` makes of `C5raw`: an address of six empty fields,
scored `"medium"`. -/
def C5out : JVal :=
  .obj [("match", .bool false), ("requestId", .str ""),
    ("requestDate", .str ""), ("credits", .num 0),
    ("identity", .obj [("names", .arr []),
      ("address", .obj [("formattedAddress", .str ""), ("street", .str ""),
        ("city", .str ""), ("state", .str ""), ("zip", .str ""),
        ("last_seen", .str "")]),
      ("addressHistory", .arr []), ("phones", .arr []),
      ("emails", .arr [])]),
    ("demographics", .obj []), ("match_confidence", .str "medium")]

/-- C5 (counterexample): the code's address facet is Python truthiness of
the address mapping, not "formattedAddress/city/state/zip not all empty".
A raw payload with an empty `output.identity.address` maps to an address
of six empty strings — truthy, hence one facet and `"medium"` — while the
spec's facet count on the same record is 0, which the claim scores
`"low"`. -/
theorem C5_counterexample :
    transform C5raw = some C5out ∧
    jGetD C5out "match_confidence" = .str "medium" ∧
    specFacetCount C5out = 0 := by decide

/-- C5 (amended): the scorer counts Python truthiness of the transformed
`phones` and `emails` lists and of the `address` mapping; the address
facet holds exactly when the address mapping is non-empty — that is,
whenever the raw payload had an `output.identity.address` section, even
one whose four schema fields are all empty.  Thresholds are as claimed:
`>= 2` high, `== 1` medium, else low. -/
theorem C5_amended (r : JVal) (p : TParts)
    (h : transformParts r = some p) :
    transform r = some (assemble p) ∧
    jGetD (assemble p) "match_confidence" = .str (matchConfidence p) ∧
    matchConfidence p = (if 2 ≤ dataPoints p then "high"
      else if dataPoints p = 1 then "medium" else "low") ∧
    dataPoints p = (if p.phones = [] then 0 else 1) +
      (if p.emails = [] then 0 else 1) +
      (if p.address = .obj [] then 0 else 1) := by
  obtain ⟨haddr, _⟩ := transformParts_shapes r p h
  refine ⟨by rw [transform, h]; rfl, rfl, rfl, ?_⟩
  unfold dataPoints
  have h1 : (if jTruthy (.arr p.phones) then 1 else 0) =
      (if p.phones = [] then 0 else 1) := by
    cases p.phones <;> simp [jTruthy]
  have h2 : (if jTruthy (.arr p.emails) then 1 else 0) =
      (if p.emails = [] then 0 else 1) := by
    cases p.emails <;> simp [jTruthy]
  have h3 : (if jTruthy p.address then 1 else 0) =
      (if p.address = .obj [] then 0 else 1) := by
    rcases haddr with ha | ha
    · rw [ha]
      simp [jTruthy]
    · have hne : p.address ≠ .obj [] := by
        intro hc
        rw [hc] at ha
        exact absurd ha.1 (by decide)
      simp [ha.2, hne]
  rw [h1, h2, h3]

/-- The concrete `TParts` value of the `C5raw` run. -/
def C5parts : TParts :=
  ⟨.bool false, .str "", .str "", .num 0, [],
    .obj [("formattedAddress", .str ""), ("street", .str ""),
      ("city", .str ""), ("state", .str ""), ("zip", .str ""),
      ("last_seen", .str "")], [], [], [], .obj []⟩

theorem C5_amended_witness :
    transform C5raw = some (assemble C5parts) ∧
    jGetD (assemble C5parts) "match_confidence" =
      .str (matchConfidence C5parts) ∧
    matchConfidence C5parts = (if 2 ≤ dataPoints C5parts then "high"
      else if dataPoints C5parts = 1 then "medium" else "low") ∧
    dataPoints C5parts = (if C5parts.phones = [] then 0 else 1) +
      (if C5parts.emails = [] then 0 else 1) +
      (if C5parts.address = .obj [] then 0 else 1) :=
  C5_amended C5raw C5parts (by decide)
